import Mathlib

/-
Verification of the offline-sync reconciliation core of the repository
(backend/routes/sync.py together with the entity models in
backend/models/patient.py, backend/models/record.py,
backend/models/reminder.py).

The embedding below translates the Python source into Lean:
payload values become a small JSON-like value type, the database
session becomes an explicit store of entity lists (SQLAlchemy's
default autoflush makes rows added earlier in a request visible to
later queries in the same request, so additions are visible
immediately), and each route handler becomes a pure function from a
store and a request to a result and a new store.  SQLite, the store
engine configured by the repository, does not enforce column value
types, so field values are stored as-is; the declared NOT NULL
constraints of the models are enforced when rows flush at the
per-kind commit points, modelled by the request-level function
sync_request below, while the loop-level sync_data describes the
in-request routing that precedes those commits.
-/

namespace AiSm26

/-- JSON-like payload values as delivered by request.get_json(), plus a
date constructor for values produced by datetime.strptime(...).date(). -/
inductive JVal where
  | null
  | bool (b : Bool)
  | int (n : Int)
  | str (s : String)
  | date (y m d : Nat)
deriving DecidableEq, Repr

/-- Python truthiness of a payload value. -/
def truthy : JVal → Bool
  | .null => false
  | .bool b => b
  | .int n => n != 0
  | .str s => s != ""
  | .date _ _ _ => true

/-- Python's a or b: the left operand when truthy, otherwise the right. -/
def jor (a b : JVal) : JVal := if truthy a then a else b

/-- One incoming payload item: a JSON object, keys in payload order. -/
abbrev Item := List (String × JVal)

/-- Python dict.get(k): None when the key is missing. -/
def pyGet (d : Item) (k : String) : JVal := (d.lookup k).getD .null

/-- Python dict.get(k, dflt): dflt only when the key is missing. -/
def pyGetD (d : Item) (k : String) (v : JVal) : JVal := (d.lookup k).getD v

/-- Patient row (backend/models/patient.py).  Control columns are struct
fields; the remaining mutable columns live in the fields map.  The
created_at and updated_at timestamps are store-maintained
(default/onupdate utcnow); updated_at is kept as a Nat stamp. -/
structure Patient where
  id : Nat
  patient_uid : String
  created_by : Nat
  local_id : JVal
  updated_at : Nat
  fields : List (String × JVal)
deriving DecidableEq, Repr

/-- MedicalRecord row (backend/models/record.py). -/
structure MedicalRecord where
  id : Nat
  patient_id : Nat
  created_by : Nat
  local_id : JVal
  updated_at : Nat
  fields : List (String × JVal)
deriving DecidableEq, Repr

/-- Reminder row (backend/models/reminder.py). -/
structure Reminder where
  id : Nat
  patient_id : Nat
  created_by : Nat
  local_id : JVal
  updated_at : Nat
  fields : List (String × JVal)
deriving DecidableEq, Repr

/-- The entity store: the three tables plus their id sequences. -/
structure Store where
  patients : List Patient
  records : List MedicalRecord
  reminders : List Reminder
  nextPatientId : Nat
  nextRecordId : Nat
  nextReminderId : Nat
deriving DecidableEq, Repr

def emptyStore : Store :=
  { patients := [], records := [], reminders := []
    nextPatientId := 1, nextRecordId := 1, nextReminderId := 1 }

/-- Set one field of a row's field map (setattr on a mapped column). -/
def setField : List (String × JVal) → String → JVal → List (String × JVal)
  | [], k, v => [(k, v)]
  | (k', v') :: fs, k, v =>
      if k' == k then (k, v) :: fs else (k', v') :: setField fs k v

/-- Read one field of a row's field map (a column defaults to NULL). -/
def getField (fs : List (String × JVal)) (k : String) : JVal :=
  (fs.lookup k).getD .null

/-- Mutate the first list element satisfying the predicate, as the ORM
does with the object returned by Query.first(). -/
def updateFirst (q : α → Bool) (f : α → α) : List α → List α
  | [] => []
  | x :: xs => if q x then f x :: xs else x :: updateFirst q f xs

/-- Patient.query.filter_by(local_id=lid, created_by=u) row predicate.
filter_by with a None value compiles to IS NULL, which is equality of
JVal.null here. -/
def pMatch (u : Nat) (lid : JVal) (p : Patient) : Bool :=
  p.local_id == lid && p.created_by == u

/-- MedicalRecord.query.filter_by(local_id=lid, created_by=u) predicate. -/
def rMatch (u : Nat) (lid : JVal) (r : MedicalRecord) : Bool :=
  r.local_id == lid && r.created_by == u

/-- Reminder.query.filter_by(local_id=lid, created_by=u) predicate. -/
def remMatch (u : Nat) (lid : JVal) (r : Reminder) : Bool :=
  r.local_id == lid && r.created_by == u

/-- Whether a payload value names the integer primary key i, for
Patient.query.get(value). -/
def jvalIsId : JVal → Nat → Bool
  | .int n, i => n == (i : Int)
  | _, _ => false

/-- sync.py lines 36 and 93/152: keys the update loops skip. -/
def patientDeny : List String := ["id", "local_id", "created_by", "patient_uid"]

def recordDeny : List String :=
  ["id", "local_id", "created_by", "patient_id", "patient_local_id"]

def reminderDeny : List String :=
  ["id", "local_id", "created_by", "patient_id", "patient_local_id"]

/-- Mutable mapped columns of Patient reachable by the update loop's
hasattr test.  created_at and updated_at are store-maintained
timestamps and methods and relationships are not columns, so they are
not modelled as settable fields. -/
def patientAttrs : List String :=
  ["first_name", "last_name", "age", "gender", "contact", "address",
   "height", "weight", "blood_group", "pregnancy_status",
   "last_menstrual_date", "expected_delivery_date", "sync_status"]

/-- Mutable mapped columns of MedicalRecord for the update loop. -/
def recordAttrs : List String :=
  ["bp_systolic", "bp_diastolic", "heart_rate", "temperature",
   "blood_sugar", "hemoglobin", "fever", "cough", "cough_duration",
   "fatigue", "weight_loss", "night_sweats", "breathlessness",
   "headache", "body_pain", "symptoms_list", "diagnosis", "notes",
   "vaccination_history", "risk_level", "risk_factors", "record_date",
   "sync_status"]

/-- Mutable mapped columns of Reminder for the update loop. -/
def reminderAttrs : List String :=
  ["reminder_type", "title", "description", "due_date", "due_time",
   "completed", "completed_at", "priority", "is_recurring",
   "recurrence_pattern", "recurrence_end_date", "sync_status"]

/-- The update loop of sync.py (lines 35-38, 92-95, 151-154): walk the
payload in order, skip denylisted keys, set every key that is a mapped
column. -/
def applyItemFields (deny attrs : List String)
    (fs : List (String × JVal)) (d : Item) : List (String × JVal) :=
  d.foldl (fun acc kv =>
    if deny.contains kv.1 then acc
    else if attrs.contains kv.1 then setField acc kv.1 kv.2
    else acc) fs

/-- Update an existing patient from a payload item (sync.py lines
33-40): reflective field assignment, then sync_status := synced; the
store stamps updated_at on commit. -/
def applyPatientUpdate (now : Nat) (d : Item) (p : Patient) : Patient :=
  { p with
    fields := setField (applyItemFields patientDeny patientAttrs p.fields d)
                "sync_status" (.str "synced")
    updated_at := now }

/-- Update an existing record from a payload item (sync.py lines 90-97). -/
def applyRecordUpdate (now : Nat) (d : Item) (r : MedicalRecord) : MedicalRecord :=
  { r with
    fields := setField (applyItemFields recordDeny recordAttrs r.fields d)
                "sync_status" (.str "synced")
    updated_at := now }

/-- Update an existing reminder from a payload item (sync.py lines
149-156). -/
def applyReminderUpdate (now : Nat) (d : Item) (r : Reminder) : Reminder :=
  { r with
    fields := setField (applyItemFields reminderDeny reminderAttrs r.fields d)
                "sync_status" (.str "synced")
    updated_at := now }

/-- Create a new Patient from a payload item (sync.py lines 43-57),
accepting both snake_case and camelCase spellings through Python or. -/
def mkPatient (u now pid : Nat) (d : Item) : Patient :=
  { id := pid
    patient_uid := "ASHA-" ++ toString pid
    created_by := u
    local_id := pyGet d "local_id"
    updated_at := now
    fields :=
      [("first_name", jor (pyGet d "first_name") (pyGetD d "firstName" (.str ""))),
       ("last_name", jor (pyGet d "last_name") (pyGetD d "lastName" (.str ""))),
       ("age", pyGetD d "age" (.int 0)),
       ("gender", pyGetD d "gender" (.str "other")),
       ("contact", pyGet d "contact"),
       ("height", pyGet d "height"),
       ("weight", pyGet d "weight"),
       ("blood_group", jor (pyGet d "blood_group") (pyGet d "bloodGroup")),
       ("pregnancy_status",
         jor (pyGet d "pregnancy_status") (pyGetD d "pregnancyStatus" (.bool false))),
       ("sync_status", .str "synced")] }

/-- Create a new MedicalRecord from a payload item (sync.py lines
100-116), parented on the resolved patient's server id. -/
def mkRecord (u now rid pid : Nat) (d : Item) : MedicalRecord :=
  { id := rid
    patient_id := pid
    created_by := u
    local_id := pyGet d "local_id"
    updated_at := now
    fields :=
      [("bp_systolic", jor (pyGet d "bp_systolic") (pyGet d "bpSystolic")),
       ("bp_diastolic", jor (pyGet d "bp_diastolic") (pyGet d "bpDiastolic")),
       ("heart_rate", jor (pyGet d "heart_rate") (pyGet d "heartRate")),
       ("temperature", pyGet d "temperature"),
       ("blood_sugar", jor (pyGet d "blood_sugar") (pyGet d "bloodSugar")),
       ("hemoglobin", pyGet d "hemoglobin"),
       ("fever", pyGetD d "fever" (.bool false)),
       ("cough", pyGetD d "cough" (.bool false)),
       ("cough_duration", jor (pyGet d "cough_duration") (pyGet d "coughDuration")),
       ("diagnosis", pyGet d "diagnosis"),
       ("notes", pyGet d "notes"),
       ("sync_status", .str "synced")] }

/-- Days in a month with Gregorian leap years, for strptime validation. -/
def daysInMonth (y m : Nat) : Nat :=
  if m == 2 then
    (if (y % 4 == 0 && y % 100 != 0) || y % 400 == 0 then 29 else 28)
  else if m == 4 || m == 6 || m == 9 || m == 11 then 30
  else 31

/-- Split a character list at dash characters. -/
def splitDash : List Char → List (List Char)
  | [] => [[]]
  | c :: cs =>
      if c = '-' then [] :: splitDash cs
      else
        match splitDash cs with
        | [] => [[c]]
        | g :: gs => (c :: g) :: gs

/-- Numeric value of a digit group. -/
def digitsToNat (cs : List Char) : Nat :=
  cs.foldl (fun n c => n * 10 + (c.toNat - 48)) 0

def allDigits (cs : List Char) : Bool :=
  cs.length > 0 && cs.all Char.isDigit

/-- Modelled datetime.strptime(s, Y-m-d format).date(): three dash
separated digit groups naming a valid calendar date. -/
def parseYmd (s : String) : Option (Nat × Nat × Nat) :=
  match splitDash s.toList with
  | [ys, ms, ds] =>
      if allDigits ys && allDigits ms && allDigits ds then
        let y := digitsToNat ys
        let m := digitsToNat ms
        let dd := digitsToNat ds
        if 1 ≤ m && m ≤ 12 && 1 ≤ dd && dd ≤ daysInMonth y m then
          some (y, m, dd)
        else none
      else none
  | _ => none

/-- sync.py lines 159 and 165: the due date expression of a new
reminder.  A falsy due_date_str yields None; a truthy string is parsed
by strptime, raising on malformed input; a truthy value of another
type makes strptime raise a type error. -/
def dueDateOutcome (d : Item) : Except String JVal :=
  let dds := jor (pyGet d "due_date") (pyGet d "dueDate")
  if truthy dds then
    match dds with
    | .str s =>
        match parseYmd s with
        | some (y, m, dd) => .ok (.date y m dd)
        | none => .error ("time data " ++ s ++ " does not match format %Y-%m-%d")
    | _ => .error "strptime() argument 1 must be str"
  else .ok .null

/-- Create a new Reminder from a payload item (sync.py lines 159-170)
given the already computed due date value. -/
def mkReminder (u now rid pid : Nat) (d : Item) (dd : JVal) : Reminder :=
  { id := rid
    patient_id := pid
    created_by := u
    local_id := pyGet d "local_id"
    updated_at := now
    fields :=
      [("reminder_type",
         jor (pyGet d "reminder_type") (pyGetD d "reminderType" (.str "follow_up"))),
       ("title", pyGetD d "title" (.str "Reminder")),
       ("description", pyGet d "description"),
       ("due_date", dd),
       ("priority", pyGetD d "priority" (.str "normal")),
       ("sync_status", .str "synced")] }

/-- Parent resolution shared by the record and reminder loops (sync.py
lines 74-79 and 133-138): a truthy patient_id is looked up by primary
key with no owner filter; otherwise a truthy patient_local_id is
looked up scoped to the owner; otherwise no parent. -/
def linkParent (u : Nat) (d : Item) (ps : List Patient) : Option Patient :=
  if truthy (pyGet d "patient_id") then
    ps.find? (fun p => jvalIsId (pyGet d "patient_id") p.id)
  else if truthy (pyGet d "patient_local_id") then
    ps.find? (pMatch u (pyGet d "patient_local_id"))
  else none

/-- Per-kind counters and errors of the sync response. -/
structure KindResult where
  created : Nat
  updated : Nat
  errors : List (JVal × String)
deriving DecidableEq, Repr

def KindResult.empty : KindResult := ⟨0, 0, []⟩

/-- One iteration of the patients loop (sync.py lines 28-64). -/
def syncPatientItem (u now : Nat) (st : Store × KindResult) (d : Item) :
    Store × KindResult :=
  let s := st.1
  let res := st.2
  let lid := pyGet d "local_id"
  match s.patients.find? (pMatch u lid) with
  | some _ =>
      ({ s with patients := updateFirst (pMatch u lid) (applyPatientUpdate now d) s.patients },
       { res with updated := res.updated + 1 })
  | none =>
      ({ s with patients := s.patients ++ [mkPatient u now s.nextPatientId d]
                nextPatientId := s.nextPatientId + 1 },
       { res with created := res.created + 1 })

/-- One iteration of the records loop (sync.py lines 69-123): parent
resolution first, then create-or-update keyed on (local_id, owner). -/
def syncRecordItem (u now : Nat) (st : Store × KindResult) (d : Item) :
    Store × KindResult :=
  let s := st.1
  let res := st.2
  let lid := pyGet d "local_id"
  match linkParent u d s.patients with
  | none =>
      (s, { res with errors := res.errors ++ [(lid, "Patient not found")] })
  | some pat =>
      match s.records.find? (rMatch u lid) with
      | some _ =>
          ({ s with records := updateFirst (rMatch u lid) (applyRecordUpdate now d) s.records },
           { res with updated := res.updated + 1 })
      | none =>
          ({ s with records := s.records ++ [mkRecord u now s.nextRecordId pat.id d]
                    nextRecordId := s.nextRecordId + 1 },
           { res with created := res.created + 1 })

/-- One iteration of the reminders loop (sync.py lines 128-177); a
malformed due date raises inside the per-item try and is recorded.
A row added here is uncommitted session state: whether it persists is
decided by the NOT NULL check at the reminders-kind commit, modelled
in sync_request. -/
def syncReminderItem (u now : Nat) (st : Store × KindResult) (d : Item) :
    Store × KindResult :=
  let s := st.1
  let res := st.2
  let lid := pyGet d "local_id"
  match linkParent u d s.patients with
  | none =>
      (s, { res with errors := res.errors ++ [(lid, "Patient not found")] })
  | some pat =>
      match s.reminders.find? (remMatch u lid) with
      | some _ =>
          ({ s with reminders := updateFirst (remMatch u lid) (applyReminderUpdate now d) s.reminders },
           { res with updated := res.updated + 1 })
      | none =>
          match dueDateOutcome d with
          | .error e =>
              (s, { res with errors := res.errors ++ [(lid, e)] })
          | .ok dd =>
              ({ s with reminders := s.reminders ++ [mkReminder u now s.nextReminderId pat.id d dd]
                        nextReminderId := s.nextReminderId + 1 },
               { res with created := res.created + 1 })

/-- The patients loop. -/
def syncPatients (u now : Nat) : Store × KindResult → List Item → Store × KindResult
  | st, [] => st
  | st, d :: ds => syncPatients u now (syncPatientItem u now st d) ds

/-- The records loop. -/
def syncRecords (u now : Nat) : Store × KindResult → List Item → Store × KindResult
  | st, [] => st
  | st, d :: ds => syncRecords u now (syncRecordItem u now st d) ds

/-- The reminders loop. -/
def syncReminders (u now : Nat) : Store × KindResult → List Item → Store × KindResult
  | st, [] => st
  | st, d :: ds => syncReminders u now (syncReminderItem u now st d) ds

/-- One sync submission: the three per-kind results of the response. -/
structure SyncResults where
  patients : KindResult
  records : KindResult
  reminders : KindResult
deriving DecidableEq, Repr

/-- One sync request body. -/
structure Batch where
  patients : List Item
  records : List Item
  reminders : List Item

/-- POST /api/sync (sync.py sync_data): all patients processed and
committed, then all records, then all reminders. -/
def sync_data (u now : Nat) (b : Batch) (s : Store) : SyncResults × Store :=
  let sp := syncPatients u now (s, KindResult.empty) b.patients
  let sr := syncRecords u now (sp.1, KindResult.empty) b.records
  let sm := syncReminders u now (sr.1, KindResult.empty) b.reminders
  ({ patients := sp.2, records := sr.2, reminders := sm.2 }, sm.1)

/-- Response of GET /api/sync/latest. -/
structure PullResult where
  patients : List Patient
  records : List MedicalRecord
  reminders : List Reminder
deriving DecidableEq, Repr

/-- datetime.min, the value used when the since parameter is absent. -/
def datetimeMin : Nat := 0

/-- GET /api/sync/latest (sync.py get_latest): patients filtered by
owner and strict timestamp; records and reminders joined to Patient
and filtered by the parent patient's owner and their own timestamp. -/
def get_latest (u : Nat) (since : Option Nat) (s : Store) : PullResult :=
  let sdt := match since with
    | some t => t
    | none => datetimeMin
  { patients := s.patients.filter
      (fun p => p.created_by == u && decide (sdt < p.updated_at))
    records := s.records.filter
      (fun r => s.patients.any (fun p => p.id == r.patient_id && p.created_by == u)
                 && decide (sdt < r.updated_at))
    reminders := s.reminders.filter
      (fun r => s.patients.any (fun p => p.id == r.patient_id && p.created_by == u)
                 && decide (sdt < r.updated_at)) }

/-- The NOT NULL declaration of Reminder.due_date
(backend/models/reminder.py line 21, nullable=False): a committed
reminder row must carry a non-null due date. -/
def reminderDueDateNotNull (r : Reminder) : Bool :=
  getField r.fields "due_date" != .null

/-! Generic list lemmas about updateFirst and key-preserving maps. -/

theorem updateFirst_length (q : α → Bool) (f : α → α) (xs : List α) :
    (updateFirst q f xs).length = xs.length := by
  induction xs with
  | nil => rfl
  | cons x xs ih => by_cases h : q x <;> simp [updateFirst, h, ih]

theorem map_updateFirst {g : α → β} {f : α → α}
    (hf : ∀ x, g (f x) = g x) (q : α → Bool) (xs : List α) :
    (updateFirst q f xs).map g = xs.map g := by
  induction xs with
  | nil => rfl
  | cons x xs ih => by_cases h : q x <;> simp [updateFirst, h, ih, hf]

theorem mem_updateFirst_of_not {q : α → Bool} {f : α → α} {x : α} {xs : List α}
    (hx : x ∈ xs) (hq : q x = false) : x ∈ updateFirst q f xs := by
  induction xs with
  | nil => cases hx
  | cons y ys ih =>
      by_cases h : q y
      · rcases List.mem_cons.1 hx with rfl | hmem
        · rw [hq] at h; cases h
        · simp [updateFirst, h, hmem]
      · rcases List.mem_cons.1 hx with rfl | hmem
        · simp [updateFirst, h]
        · simp [updateFirst, h, ih hmem]

theorem mem_updateFirst {q : α → Bool} {f : α → α} {y : α} {xs : List α}
    (h : y ∈ updateFirst q f xs) :
    y ∈ xs ∨ ∃ x ∈ xs, q x = true ∧ y = f x := by
  induction xs with
  | nil => cases h
  | cons x xs ih =>
      by_cases hq : q x
      · simp only [updateFirst, hq, if_pos] at h
        rcases List.mem_cons.1 h with rfl | hmem
        · exact Or.inr ⟨x, List.mem_cons_self x xs, hq, rfl⟩
        · exact Or.inl (List.mem_cons_of_mem x hmem)
      · simp only [updateFirst, hq, if_neg, Bool.false_eq_true, not_false_iff] at h
        rcases List.mem_cons.1 h with rfl | hmem
        · exact Or.inl (List.mem_cons_self y xs)
        · rcases ih hmem with h1 | ⟨z, hz, hqz, hy⟩
          · exact Or.inl (List.mem_cons_of_mem x h1)
          · exact Or.inr ⟨z, List.mem_cons_of_mem x hz, hqz, hy⟩

theorem exists_mem_updateFirst {q : α → Bool} {f : α → α} {Q : α → Bool}
    (hf : ∀ x, Q x = true → Q (f x) = true) {xs : List α}
    (h : ∃ x ∈ xs, Q x = true) : ∃ y ∈ updateFirst q f xs, Q y = true := by
  induction xs with
  | nil => simp at h
  | cons x xs ih =>
      obtain ⟨z, hz, hQz⟩ := h
      by_cases hq : q x
      · rcases List.mem_cons.1 hz with rfl | hmem
        · exact ⟨f z, by simp [updateFirst, hq], hf z hQz⟩
        · exact ⟨z, by simp [updateFirst, hq, hmem], hQz⟩
      · rcases List.mem_cons.1 hz with rfl | hmem
        · exact ⟨z, by simp [updateFirst, hq], hQz⟩
        · obtain ⟨y, hy, hQy⟩ := ih ⟨z, hmem, hQz⟩
          exact ⟨y, by simp [updateFirst, hq, Or.inr hy], hQy⟩

theorem exists_mem_of_map_eq {g : α → β} {Q : α → Bool}
    (hQ : ∀ x y, g x = g y → Q x = Q y) {xs ys : List α}
    (h : xs.map g = ys.map g) (hx : ∃ x ∈ xs, Q x = true) :
    ∃ y ∈ ys, Q y = true := by
  obtain ⟨x, hxm, hxq⟩ := hx
  have hgm : g x ∈ ys.map g := h ▸ List.mem_map_of_mem g hxm
  obtain ⟨y, hym, hgy⟩ := List.mem_map.1 hgm
  exact ⟨y, hym, (hQ y x hgy).trans hxq⟩

theorem find?_isSome_of_map_eq {g : α → β} {Q : α → Bool}
    (hQ : ∀ x y, g x = g y → Q x = Q y) {xs ys : List α}
    (h : xs.map g = ys.map g) :
    (xs.find? Q).isSome = (ys.find? Q).isSome := by
  rcases hx : (xs.find? Q).isSome with _ | _
  · rcases hy : (ys.find? Q).isSome with _ | _
    · rfl
    · obtain ⟨y, hym, hyq⟩ := List.find?_isSome.1 hy
      obtain ⟨x, hxm, hxq⟩ := exists_mem_of_map_eq hQ h.symm ⟨y, hym, hyq⟩
      rw [← hx]
      exact List.find?_isSome.2 ⟨x, hxm, hxq⟩
  · obtain ⟨x, hxm, hxq⟩ := List.find?_isSome.1 hx
    obtain ⟨y, hym, hyq⟩ := exists_mem_of_map_eq hQ h ⟨x, hxm, hxq⟩
    exact (List.find?_isSome.2 ⟨y, hym, hyq⟩).symm

theorem find?_eq_some_of_unique {Q : α → Bool} {xs : List α} {a : α}
    (ha : a ∈ xs) (hq : Q a = true)
    (huniq : ∀ x ∈ xs, Q x = true → x = a) :
    xs.find? Q = some a := by
  induction xs with
  | nil => cases ha
  | cons x xs ih =>
      by_cases hqx : Q x
      · have hxa : x = a := huniq x (List.mem_cons_self x xs) hqx
        subst hxa
        simp [List.find?, hqx]
      · have hne : a ≠ x := fun h => by rw [← h] at hqx; exact hqx hq
        have hmem : a ∈ xs := by
          rcases List.mem_cons.1 ha with h1 | h1
          · exact absurd h1 hne
          · exact h1
        simp only [List.find?, hqx]
        exact ih hmem (fun x hx hQ => huniq x (List.mem_cons_of_mem _ hx) hQ)

theorem filter_eq_singleton_split {q : α → Bool} {xs : List α} {a : α}
    (h : xs.filter q = [a]) :
    ∃ l r, xs = l ++ a :: r ∧ (∀ x ∈ l, q x = false) ∧
      (∀ x ∈ r, q x = false) ∧ q a = true := by
  induction xs with
  | nil => simp at h
  | cons x xs ih =>
      by_cases hq : q x
      · have hfil : x :: xs.filter q = [a] := by
          rw [← h]; simp [List.filter, hq]
        have hpair := List.cons.inj hfil
        have hx : x = a := hpair.1
        have hnil : xs.filter q = [] := hpair.2
        refine ⟨[], xs, by simp [hx], by simp, ?_, hx ▸ hq⟩
        intro y hy
        have := List.filter_eq_nil_iff.1 hnil y hy
        simpa using this
      · have hfil : xs.filter q = [a] := by
          rw [← h]; simp [List.filter, hq]
        obtain ⟨l, r, hsplit, hl, hr, hqa⟩ := ih hfil
        refine ⟨x :: l, r, ?_, ?_, hr, hqa⟩
        · rw [hsplit]; rfl
        · intro y hy
          rcases List.mem_cons.1 hy with rfl | hmem
          · simpa using hq
          · exact hl y hmem

/-! Key functions: each row's identity-relevant columns, preserved by
every reflective update. -/

def pkey (p : Patient) : Nat × JVal × Nat := (p.id, p.local_id, p.created_by)

def rkey (r : MedicalRecord) : Nat × JVal × Nat := (r.patient_id, r.local_id, r.created_by)

def remkey (r : Reminder) : Nat × JVal × Nat := (r.patient_id, r.local_id, r.created_by)

theorem pkey_applyPatientUpdate (now : Nat) (d : Item) (p : Patient) :
    pkey (applyPatientUpdate now d p) = pkey p := rfl

theorem rkey_applyRecordUpdate (now : Nat) (d : Item) (r : MedicalRecord) :
    rkey (applyRecordUpdate now d r) = rkey r := rfl

theorem remkey_applyReminderUpdate (now : Nat) (d : Item) (r : Reminder) :
    remkey (applyReminderUpdate now d r) = remkey r := rfl

theorem pMatch_congr (u : Nat) (lid : JVal) :
    ∀ x y : Patient, pkey x = pkey y → pMatch u lid x = pMatch u lid y := by
  intro x y h
  have h2 : x.local_id = y.local_id := congrArg (fun k => k.2.1) h
  have h3 : x.created_by = y.created_by := congrArg (fun k => k.2.2) h
  simp [pMatch, h2, h3]

theorem idMatch_congr (v : JVal) :
    ∀ x y : Patient, pkey x = pkey y →
      jvalIsId v x.id = jvalIsId v y.id := by
  intro x y h
  have h1 : x.id = y.id := congrArg (fun k => k.1) h
  rw [h1]

theorem rMatch_congr (u : Nat) (lid : JVal) :
    ∀ x y : MedicalRecord, rkey x = rkey y → rMatch u lid x = rMatch u lid y := by
  intro x y h
  have h2 : x.local_id = y.local_id := congrArg (fun k => k.2.1) h
  have h3 : x.created_by = y.created_by := congrArg (fun k => k.2.2) h
  simp [rMatch, h2, h3]

theorem remMatch_congr (u : Nat) (lid : JVal) :
    ∀ x y : Reminder, remkey x = remkey y → remMatch u lid x = remMatch u lid y := by
  intro x y h
  have h2 : x.local_id = y.local_id := congrArg (fun k => k.2.1) h
  have h3 : x.created_by = y.created_by := congrArg (fun k => k.2.2) h
  simp [remMatch, h2, h3]

theorem pMatch_applyPatientUpdate (u : Nat) (lid : JVal) (now : Nat) (d : Item)
    (p : Patient) : pMatch u lid (applyPatientUpdate now d p) = pMatch u lid p :=
  pMatch_congr u lid _ p (pkey_applyPatientUpdate now d p)

theorem rMatch_applyRecordUpdate (u : Nat) (lid : JVal) (now : Nat) (d : Item)
    (r : MedicalRecord) : rMatch u lid (applyRecordUpdate now d r) = rMatch u lid r :=
  rMatch_congr u lid _ r (rkey_applyRecordUpdate now d r)

theorem remMatch_applyReminderUpdate (u : Nat) (lid : JVal) (now : Nat) (d : Item)
    (r : Reminder) : remMatch u lid (applyReminderUpdate now d r) = remMatch u lid r :=
  remMatch_congr u lid _ r (remkey_applyReminderUpdate now d r)

/-- linkParent looks at patients only through their key columns. -/
theorem linkParent_isSome_of_map_eq (u : Nat) (d : Item)
    {ps qs : List Patient} (h : ps.map pkey = qs.map pkey) :
    (linkParent u d ps).isSome = (linkParent u d qs).isSome := by
  unfold linkParent
  by_cases h1 : truthy (pyGet d "patient_id")
  · simp only [h1, if_pos]
    exact find?_isSome_of_map_eq (fun x y hk => idMatch_congr _ x y hk) h
  · simp only [h1, Bool.false_eq_true, if_neg, not_false_iff]
    by_cases h2 : truthy (pyGet d "patient_local_id")
    · simp only [h2, if_pos]
      exact find?_isSome_of_map_eq (pMatch_congr u _) h
    · simp [h2]

/-! Step lemmas for the patients loop. -/

theorem patientItem_stable (u now : Nat) (s : Store) (res : KindResult) (d : Item) :
    (syncPatientItem u now (s, res) d).1.records = s.records ∧
    (syncPatientItem u now (s, res) d).1.reminders = s.reminders ∧
    (syncPatientItem u now (s, res) d).1.nextRecordId = s.nextRecordId ∧
    (syncPatientItem u now (s, res) d).1.nextReminderId = s.nextReminderId ∧
    (syncPatientItem u now (s, res) d).2.errors = res.errors := by
  cases hf : s.patients.find? (pMatch u (pyGet d "local_id")) <;>
    simp [syncPatientItem, hf]

theorem patientItem_of_found (u now : Nat) (s : Store) (res : KindResult) (d : Item)
    (h : (s.patients.find? (pMatch u (pyGet d "local_id"))).isSome = true) :
    (syncPatientItem u now (s, res) d).1.patients.map pkey = s.patients.map pkey ∧
    (syncPatientItem u now (s, res) d).2.created = res.created := by
  cases hf : s.patients.find? (pMatch u (pyGet d "local_id")) with
  | none => rw [hf] at h; simp at h
  | some x =>
      constructor
      · simp only [syncPatientItem, hf]
        exact map_updateFirst (fun p => pkey_applyPatientUpdate now d p) _ _
      · simp [syncPatientItem, hf]

theorem patientItem_ensures (u now : Nat) (s : Store) (res : KindResult) (d : Item) :
    ∃ p ∈ (syncPatientItem u now (s, res) d).1.patients,
      pMatch u (pyGet d "local_id") p = true := by
  cases hf : s.patients.find? (pMatch u (pyGet d "local_id")) with
  | some x =>
      have hx := List.find?_some hf
      have hm := List.mem_of_find?_eq_some hf
      have hpres : ∀ p : Patient, pMatch u (pyGet d "local_id") p = true →
          pMatch u (pyGet d "local_id") (applyPatientUpdate now d p) = true := by
        intro p hp; rw [pMatch_applyPatientUpdate]; exact hp
      have hex := exists_mem_updateFirst (q := pMatch u (pyGet d "local_id"))
        (f := applyPatientUpdate now d) hpres ⟨x, hm, hx⟩
      simpa [syncPatientItem, hf] using hex
  | none =>
      refine ⟨mkPatient u now s.nextPatientId d, ?_, ?_⟩
      · simp [syncPatientItem, hf]
      · simp [pMatch, mkPatient]

theorem patientItem_preserves (u now u2 : Nat) (lid2 : JVal) (s : Store)
    (res : KindResult) (d : Item)
    (h : ∃ p ∈ s.patients, pMatch u2 lid2 p = true) :
    ∃ p ∈ (syncPatientItem u now (s, res) d).1.patients, pMatch u2 lid2 p = true := by
  cases hf : s.patients.find? (pMatch u (pyGet d "local_id")) with
  | some x =>
      have hpres : ∀ p : Patient, pMatch u2 lid2 p = true →
          pMatch u2 lid2 (applyPatientUpdate now d p) = true := by
        intro p hp; rw [pMatch_applyPatientUpdate]; exact hp
      have hex := exists_mem_updateFirst (q := pMatch u (pyGet d "local_id"))
        (f := applyPatientUpdate now d) hpres h
      simpa [syncPatientItem, hf] using hex
  | none =>
      obtain ⟨p, hm, hp⟩ := h
      refine ⟨p, ?_, hp⟩
      simp [syncPatientItem, hf, List.mem_append, Or.inl hm]

theorem patientItem_created_le (u now : Nat) (s : Store) (res : KindResult)
    (d : Item) : res.created ≤ (syncPatientItem u now (s, res) d).2.created := by
  cases hf : s.patients.find? (pMatch u (pyGet d "local_id")) <;>
    simp [syncPatientItem, hf]

/-! Fold lemmas for the patients loop. -/

theorem syncPatients_stable (u now : Nat) (ds : List Item) :
    ∀ st : Store × KindResult,
    (syncPatients u now st ds).1.records = st.1.records ∧
    (syncPatients u now st ds).1.reminders = st.1.reminders ∧
    (syncPatients u now st ds).1.nextRecordId = st.1.nextRecordId ∧
    (syncPatients u now st ds).1.nextReminderId = st.1.nextReminderId := by
  induction ds with
  | nil => intro st; exact ⟨rfl, rfl, rfl, rfl⟩
  | cons d ds ih =>
      intro st
      obtain ⟨s, res⟩ := st
      have h1 := patientItem_stable u now s res d
      have h2 := ih (syncPatientItem u now (s, res) d)
      exact ⟨h2.1.trans h1.1, h2.2.1.trans h1.2.1,
        h2.2.2.1.trans h1.2.2.1, h2.2.2.2.trans h1.2.2.2.1⟩

theorem syncPatients_errors (u now : Nat) (ds : List Item) :
    ∀ st : Store × KindResult,
    (syncPatients u now st ds).2.errors = st.2.errors := by
  induction ds with
  | nil => intro st; rfl
  | cons d ds ih =>
      intro st
      obtain ⟨s, res⟩ := st
      exact (ih (syncPatientItem u now (s, res) d)).trans
        (patientItem_stable u now s res d).2.2.2.2

theorem syncPatients_preserves (u now u2 : Nat) (lid2 : JVal) (ds : List Item) :
    ∀ st : Store × KindResult,
    (∃ p ∈ st.1.patients, pMatch u2 lid2 p = true) →
    ∃ p ∈ (syncPatients u now st ds).1.patients, pMatch u2 lid2 p = true := by
  induction ds with
  | nil => intro st h; exact h
  | cons d ds ih =>
      intro st h
      obtain ⟨s, res⟩ := st
      exact ih _ (patientItem_preserves u now u2 lid2 s res d h)

theorem syncPatients_ensures (u now : Nat) (ds : List Item) :
    ∀ st : Store × KindResult, ∀ d ∈ ds,
    ∃ p ∈ (syncPatients u now st ds).1.patients,
      pMatch u (pyGet d "local_id") p = true := by
  induction ds with
  | nil => intro st d hd; cases hd
  | cons d0 ds ih =>
      intro st d hd
      obtain ⟨s, res⟩ := st
      rcases List.mem_cons.1 hd with rfl | hmem
      · exact syncPatients_preserves u now u (pyGet d "local_id") ds _
          (patientItem_ensures u now s res d)
      · exact ih _ d hmem

theorem syncPatients_created_le (u now : Nat) (ds : List Item) :
    ∀ st : Store × KindResult,
    st.2.created ≤ (syncPatients u now st ds).2.created := by
  induction ds with
  | nil => intro st; exact Nat.le_refl _
  | cons d ds ih =>
      intro st
      obtain ⟨s, res⟩ := st
      exact Nat.le_trans (patientItem_created_le u now s res d)
        (ih (syncPatientItem u now (s, res) d))

/-- Second submission of the same patient items: when every item
already has a matching row, every step routes to update, so no row is
created and the key projection of the table is unchanged. -/
theorem syncPatients_second (u now : Nat) (S : List Patient) (ds : List Item) :
    ∀ (s : Store) (res : KindResult),
    s.patients.map pkey = S.map pkey →
    (∀ d ∈ ds, ∃ p ∈ S, pMatch u (pyGet d "local_id") p = true) →
    (syncPatients u now (s, res) ds).1.patients.map pkey = S.map pkey ∧
    (syncPatients u now (s, res) ds).2.created = res.created := by
  induction ds with
  | nil => intro s res hmap _; exact ⟨hmap, rfl⟩
  | cons d ds ih =>
      intro s res hmap hall
      have hex : ∃ p ∈ s.patients, pMatch u (pyGet d "local_id") p = true :=
        exists_mem_of_map_eq (pMatch_congr u _) hmap.symm
          (hall d (List.mem_cons_self d ds))
      have hsome : (s.patients.find? (pMatch u (pyGet d "local_id"))).isSome = true :=
        List.find?_isSome.2 hex
      have hstep := patientItem_of_found u now s res d hsome
      have ih2 := ih (syncPatientItem u now (s, res) d).1
        (syncPatientItem u now (s, res) d).2 (hstep.1.trans hmap)
        (fun d2 hd2 => hall d2 (List.mem_cons_of_mem d hd2))
      exact ⟨ih2.1, ih2.2.trans hstep.2⟩

/-! Step lemmas for the records loop. -/

theorem recordItem_stable (u now : Nat) (s : Store) (res : KindResult) (d : Item) :
    (syncRecordItem u now (s, res) d).1.patients = s.patients ∧
    (syncRecordItem u now (s, res) d).1.reminders = s.reminders ∧
    (syncRecordItem u now (s, res) d).1.nextPatientId = s.nextPatientId ∧
    (syncRecordItem u now (s, res) d).1.nextReminderId = s.nextReminderId := by
  cases hl : linkParent u d s.patients with
  | none => simp [syncRecordItem, hl]
  | some pat =>
      cases hf : s.records.find? (rMatch u (pyGet d "local_id")) <;>
        simp [syncRecordItem, hl, hf]

theorem recordItem_of_noparent (u now : Nat) (s : Store) (res : KindResult)
    (d : Item) (h : linkParent u d s.patients = none) :
    syncRecordItem u now (s, res) d =
      (s, { res with
            errors := res.errors ++ [(pyGet d "local_id", "Patient not found")] }) := by
  simp [syncRecordItem, h]

theorem recordItem_of_found (u now : Nat) (s : Store) (res : KindResult) (d : Item)
    (hp : (linkParent u d s.patients).isSome = true)
    (hf : (s.records.find? (rMatch u (pyGet d "local_id"))).isSome = true) :
    (syncRecordItem u now (s, res) d).1.records.map rkey = s.records.map rkey ∧
    (syncRecordItem u now (s, res) d).2.created = res.created := by
  cases hl : linkParent u d s.patients with
  | none => rw [hl] at hp; simp at hp
  | some pat =>
      cases hff : s.records.find? (rMatch u (pyGet d "local_id")) with
      | none => rw [hff] at hf; simp at hf
      | some x =>
          constructor
          · simp only [syncRecordItem, hl, hff]
            exact map_updateFirst (fun r => rkey_applyRecordUpdate now d r) _ _
          · simp [syncRecordItem, hl, hff]

theorem recordItem_ensures (u now : Nat) (s : Store) (res : KindResult) (d : Item)
    (hp : (linkParent u d s.patients).isSome = true) :
    ∃ r ∈ (syncRecordItem u now (s, res) d).1.records,
      rMatch u (pyGet d "local_id") r = true := by
  cases hl : linkParent u d s.patients with
  | none => rw [hl] at hp; simp at hp
  | some pat =>
      cases hff : s.records.find? (rMatch u (pyGet d "local_id")) with
      | some x =>
          have hx := List.find?_some hff
          have hm := List.mem_of_find?_eq_some hff
          have hpres : ∀ r : MedicalRecord, rMatch u (pyGet d "local_id") r = true →
              rMatch u (pyGet d "local_id") (applyRecordUpdate now d r) = true := by
            intro r hr; rw [rMatch_applyRecordUpdate]; exact hr
          have hex := exists_mem_updateFirst (q := rMatch u (pyGet d "local_id"))
            (f := applyRecordUpdate now d) hpres ⟨x, hm, hx⟩
          simpa [syncRecordItem, hl, hff] using hex
      | none =>
          refine ⟨mkRecord u now s.nextRecordId pat.id d, ?_, ?_⟩
          · simp [syncRecordItem, hl, hff]
          · simp [rMatch, mkRecord]

theorem recordItem_preserves (u now u2 : Nat) (lid2 : JVal) (s : Store)
    (res : KindResult) (d : Item)
    (h : ∃ r ∈ s.records, rMatch u2 lid2 r = true) :
    ∃ r ∈ (syncRecordItem u now (s, res) d).1.records, rMatch u2 lid2 r = true := by
  cases hl : linkParent u d s.patients with
  | none => simpa [syncRecordItem, hl] using h
  | some pat =>
      cases hff : s.records.find? (rMatch u (pyGet d "local_id")) with
      | some x =>
          have hpres : ∀ r : MedicalRecord, rMatch u2 lid2 r = true →
              rMatch u2 lid2 (applyRecordUpdate now d r) = true := by
            intro r hr; rw [rMatch_applyRecordUpdate]; exact hr
          have hex := exists_mem_updateFirst (q := rMatch u (pyGet d "local_id"))
            (f := applyRecordUpdate now d) hpres h
          simpa [syncRecordItem, hl, hff] using hex
      | none =>
          obtain ⟨r, hm, hr⟩ := h
          refine ⟨r, ?_, hr⟩
          simp [syncRecordItem, hl, hff, List.mem_append, Or.inl hm]

theorem recordItem_created_le (u now : Nat) (s : Store) (res : KindResult)
    (d : Item) : res.created ≤ (syncRecordItem u now (s, res) d).2.created := by
  cases hl : linkParent u d s.patients with
  | none => simp [syncRecordItem, hl]
  | some pat =>
      cases hff : s.records.find? (rMatch u (pyGet d "local_id")) <;>
        simp [syncRecordItem, hl, hff]

/-! Fold lemmas for the records loop. -/

theorem syncRecords_stable (u now : Nat) (ds : List Item) :
    ∀ st : Store × KindResult,
    (syncRecords u now st ds).1.patients = st.1.patients ∧
    (syncRecords u now st ds).1.reminders = st.1.reminders := by
  induction ds with
  | nil => intro st; exact ⟨rfl, rfl⟩
  | cons d ds ih =>
      intro st
      obtain ⟨s, res⟩ := st
      have h1 := recordItem_stable u now s res d
      have h2 := ih (syncRecordItem u now (s, res) d)
      exact ⟨h2.1.trans h1.1, h2.2.trans h1.2.1⟩

theorem syncRecords_preserves (u now u2 : Nat) (lid2 : JVal) (ds : List Item) :
    ∀ st : Store × KindResult,
    (∃ r ∈ st.1.records, rMatch u2 lid2 r = true) →
    ∃ r ∈ (syncRecords u now st ds).1.records, rMatch u2 lid2 r = true := by
  induction ds with
  | nil => intro st h; exact h
  | cons d ds ih =>
      intro st h
      obtain ⟨s, res⟩ := st
      exact ih _ (recordItem_preserves u now u2 lid2 s res d h)

theorem syncRecords_ensures (u now : Nat) (ds : List Item) :
    ∀ st : Store × KindResult, ∀ d ∈ ds,
    (linkParent u d st.1.patients).isSome = true →
    ∃ r ∈ (syncRecords u now st ds).1.records,
      rMatch u (pyGet d "local_id") r = true := by
  induction ds with
  | nil => intro st d hd; cases hd
  | cons d0 ds ih =>
      intro st d hd hp
      obtain ⟨s, res⟩ := st
      rcases List.mem_cons.1 hd with rfl | hmem
      · exact syncRecords_preserves u now u (pyGet d "local_id") ds _
          (recordItem_ensures u now s res d hp)
      · have hpat : (syncRecordItem u now (s, res) d0).1.patients = s.patients :=
          (recordItem_stable u now s res d0).1
        exact ih _ d hmem (by rw [hpat]; exact hp)

theorem syncRecords_created_le (u now : Nat) (ds : List Item) :
    ∀ st : Store × KindResult,
    st.2.created ≤ (syncRecords u now st ds).2.created := by
  induction ds with
  | nil => intro st; exact Nat.le_refl _
  | cons d ds ih =>
      intro st
      obtain ⟨s, res⟩ := st
      exact Nat.le_trans (recordItem_created_le u now s res d)
        (ih (syncRecordItem u now (s, res) d))

/-- Second submission of the same record items against reference
tables P and R: every item either fails parent resolution exactly as
before or routes to update, so nothing is created. -/
theorem syncRecords_second (u now : Nat) (P : List Patient)
    (R : List MedicalRecord) (ds : List Item) :
    ∀ (s : Store) (res : KindResult),
    s.patients.map pkey = P.map pkey →
    s.records.map rkey = R.map rkey →
    (∀ d ∈ ds, (linkParent u d P).isSome = true →
       ∃ r ∈ R, rMatch u (pyGet d "local_id") r = true) →
    (syncRecords u now (s, res) ds).1.records.map rkey = R.map rkey ∧
    (syncRecords u now (s, res) ds).2.created = res.created ∧
    (syncRecords u now (s, res) ds).1.patients = s.patients ∧
    (syncRecords u now (s, res) ds).1.reminders = s.reminders := by
  induction ds with
  | nil => intro s res h1 h2 _; exact ⟨h2, rfl, rfl, rfl⟩
  | cons d ds ih =>
      intro s res hmapP hmapR hall
      have hps : (linkParent u d s.patients).isSome = (linkParent u d P).isSome :=
        linkParent_isSome_of_map_eq u d hmapP
      cases hb : (linkParent u d P).isSome with
      | false =>
          have hnone : linkParent u d s.patients = none := by
            rw [hb] at hps
            exact Option.not_isSome_iff_eq_none.1 (by simp [hps])
          have hstep := recordItem_of_noparent u now s res d hnone
          have hrw : syncRecords u now (s, res) (d :: ds) =
              syncRecords u now (s, { res with
                errors := res.errors ++ [(pyGet d "local_id", "Patient not found")] }) ds := by
            show syncRecords u now (syncRecordItem u now (s, res) d) ds = _
            rw [hstep]
          rw [hrw]
          have ih2 := ih s { res with
              errors := res.errors ++ [(pyGet d "local_id", "Patient not found")] }
            hmapP hmapR (fun d2 hd2 => hall d2 (List.mem_cons_of_mem d hd2))
          exact ⟨ih2.1, ih2.2.1, ih2.2.2.1, ih2.2.2.2⟩
      | true =>
          have hR := hall d (List.mem_cons_self d ds) hb
          have hex : ∃ r ∈ s.records, rMatch u (pyGet d "local_id") r = true :=
            exists_mem_of_map_eq (rMatch_congr u _) hmapR.symm hR
          have hsome : (s.records.find? (rMatch u (pyGet d "local_id"))).isSome = true :=
            List.find?_isSome.2 hex
          have hp : (linkParent u d s.patients).isSome = true := by rw [hps, hb]
          have hstep := recordItem_of_found u now s res d hp hsome
          have hstable := recordItem_stable u now s res d
          have ih2 := ih (syncRecordItem u now (s, res) d).1
            (syncRecordItem u now (s, res) d).2
            (by rw [hstable.1]; exact hmapP) (hstep.1.trans hmapR)
            (fun d2 hd2 => hall d2 (List.mem_cons_of_mem d hd2))
          exact ⟨ih2.1, ih2.2.1.trans hstep.2,
            ih2.2.2.1.trans hstable.1, ih2.2.2.2.trans hstable.2.1⟩

/-! Step lemmas for the reminders loop. -/

/-- Whether the create path of a reminder item raises while computing
the due date; this depends only on the payload item. -/
def ddFails (d : Item) : Bool :=
  match dueDateOutcome d with
  | .ok _ => false
  | .error _ => true

theorem reminderItem_stable (u now : Nat) (s : Store) (res : KindResult) (d : Item) :
    (syncReminderItem u now (s, res) d).1.patients = s.patients ∧
    (syncReminderItem u now (s, res) d).1.records = s.records ∧
    (syncReminderItem u now (s, res) d).1.nextPatientId = s.nextPatientId ∧
    (syncReminderItem u now (s, res) d).1.nextRecordId = s.nextRecordId := by
  cases hl : linkParent u d s.patients with
  | none => simp [syncReminderItem, hl]
  | some pat =>
      cases hf : s.reminders.find? (remMatch u (pyGet d "local_id")) with
      | some x => simp [syncReminderItem, hl, hf]
      | none =>
          cases hdd : dueDateOutcome d <;> simp [syncReminderItem, hl, hf, hdd]

theorem reminderItem_of_noparent (u now : Nat) (s : Store) (res : KindResult)
    (d : Item) (h : linkParent u d s.patients = none) :
    syncReminderItem u now (s, res) d =
      (s, { res with
            errors := res.errors ++ [(pyGet d "local_id", "Patient not found")] }) := by
  simp [syncReminderItem, h]

theorem reminderItem_of_found (u now : Nat) (s : Store) (res : KindResult) (d : Item)
    (hp : (linkParent u d s.patients).isSome = true)
    (hf : (s.reminders.find? (remMatch u (pyGet d "local_id"))).isSome = true) :
    (syncReminderItem u now (s, res) d).1.reminders.map remkey = s.reminders.map remkey ∧
    (syncReminderItem u now (s, res) d).2.created = res.created := by
  cases hl : linkParent u d s.patients with
  | none => rw [hl] at hp; simp at hp
  | some pat =>
      cases hff : s.reminders.find? (remMatch u (pyGet d "local_id")) with
      | none => rw [hff] at hf; simp at hf
      | some x =>
          constructor
          · simp only [syncReminderItem, hl, hff]
            exact map_updateFirst (fun r => remkey_applyReminderUpdate now d r) _ _
          · simp [syncReminderItem, hl, hff]

theorem reminderItem_of_ddfail (u now : Nat) (s : Store) (res : KindResult)
    (d : Item) (hp : (linkParent u d s.patients).isSome = true)
    (hf : (s.reminders.find? (remMatch u (pyGet d "local_id"))).isSome = false)
    (hdd : ddFails d = true) :
    (syncReminderItem u now (s, res) d).1 = s ∧
    (syncReminderItem u now (s, res) d).2.created = res.created := by
  cases hl : linkParent u d s.patients with
  | none => rw [hl] at hp; simp at hp
  | some pat =>
      cases hff : s.reminders.find? (remMatch u (pyGet d "local_id")) with
      | some x => rw [hff] at hf; simp at hf
      | none =>
          cases hout : dueDateOutcome d with
          | ok v => rw [ddFails, hout] at hdd; simp at hdd
          | error e => simp [syncReminderItem, hl, hff, hout]

theorem reminderItem_ensures (u now : Nat) (s : Store) (res : KindResult) (d : Item)
    (hp : (linkParent u d s.patients).isSome = true) :
    (∃ r ∈ (syncReminderItem u now (s, res) d).1.reminders,
      remMatch u (pyGet d "local_id") r = true) ∨ ddFails d = true := by
  cases hl : linkParent u d s.patients with
  | none => rw [hl] at hp; simp at hp
  | some pat =>
      cases hff : s.reminders.find? (remMatch u (pyGet d "local_id")) with
      | some x =>
          have hx := List.find?_some hff
          have hm := List.mem_of_find?_eq_some hff
          have hpres : ∀ r : Reminder, remMatch u (pyGet d "local_id") r = true →
              remMatch u (pyGet d "local_id") (applyReminderUpdate now d r) = true := by
            intro r hr; rw [remMatch_applyReminderUpdate]; exact hr
          have hex := exists_mem_updateFirst (q := remMatch u (pyGet d "local_id"))
            (f := applyReminderUpdate now d) hpres ⟨x, hm, hx⟩
          exact Or.inl (by simpa [syncReminderItem, hl, hff] using hex)
      | none =>
          cases hout : dueDateOutcome d with
          | error e => exact Or.inr (by rw [ddFails, hout])
          | ok v =>
              refine Or.inl ⟨mkReminder u now s.nextReminderId pat.id d v, ?_, ?_⟩
              · simp [syncReminderItem, hl, hff, hout]
              · simp [remMatch, mkReminder]

theorem reminderItem_preserves (u now u2 : Nat) (lid2 : JVal) (s : Store)
    (res : KindResult) (d : Item)
    (h : ∃ r ∈ s.reminders, remMatch u2 lid2 r = true) :
    ∃ r ∈ (syncReminderItem u now (s, res) d).1.reminders,
      remMatch u2 lid2 r = true := by
  cases hl : linkParent u d s.patients with
  | none => simpa [syncReminderItem, hl] using h
  | some pat =>
      cases hff : s.reminders.find? (remMatch u (pyGet d "local_id")) with
      | some x =>
          have hpres : ∀ r : Reminder, remMatch u2 lid2 r = true →
              remMatch u2 lid2 (applyReminderUpdate now d r) = true := by
            intro r hr; rw [remMatch_applyReminderUpdate]; exact hr
          have hex := exists_mem_updateFirst (q := remMatch u (pyGet d "local_id"))
            (f := applyReminderUpdate now d) hpres h
          simpa [syncReminderItem, hl, hff] using hex
      | none =>
          obtain ⟨r, hm, hr⟩ := h
          cases hout : dueDateOutcome d with
          | error e =>
              refine ⟨r, ?_, hr⟩
              simp [syncReminderItem, hl, hff, hout, hm]
          | ok v =>
              refine ⟨r, ?_, hr⟩
              simp [syncReminderItem, hl, hff, hout, List.mem_append, Or.inl hm]

/-! Fold lemmas for the reminders loop. -/

theorem syncReminders_stable (u now : Nat) (ds : List Item) :
    ∀ st : Store × KindResult,
    (syncReminders u now st ds).1.patients = st.1.patients ∧
    (syncReminders u now st ds).1.records = st.1.records := by
  induction ds with
  | nil => intro st; exact ⟨rfl, rfl⟩
  | cons d ds ih =>
      intro st
      obtain ⟨s, res⟩ := st
      have h1 := reminderItem_stable u now s res d
      have h2 := ih (syncReminderItem u now (s, res) d)
      exact ⟨h2.1.trans h1.1, h2.2.trans h1.2.1⟩

theorem syncReminders_preserves (u now u2 : Nat) (lid2 : JVal) (ds : List Item) :
    ∀ st : Store × KindResult,
    (∃ r ∈ st.1.reminders, remMatch u2 lid2 r = true) →
    ∃ r ∈ (syncReminders u now st ds).1.reminders, remMatch u2 lid2 r = true := by
  induction ds with
  | nil => intro st h; exact h
  | cons d ds ih =>
      intro st h
      obtain ⟨s, res⟩ := st
      exact ih _ (reminderItem_preserves u now u2 lid2 s res d h)

theorem syncReminders_ensures (u now : Nat) (ds : List Item) :
    ∀ st : Store × KindResult, ∀ d ∈ ds,
    (linkParent u d st.1.patients).isSome = true →
    (∃ r ∈ (syncReminders u now st ds).1.reminders,
       remMatch u (pyGet d "local_id") r = true) ∨ ddFails d = true := by
  induction ds with
  | nil => intro st d hd; cases hd
  | cons d0 ds ih =>
      intro st d hd hp
      obtain ⟨s, res⟩ := st
      rcases List.mem_cons.1 hd with rfl | hmem
      · rcases reminderItem_ensures u now s res d hp with h1 | h1
        · exact Or.inl (syncReminders_preserves u now u (pyGet d "local_id") ds _ h1)
        · exact Or.inr h1
      · have hpat : (syncReminderItem u now (s, res) d0).1.patients = s.patients :=
          (reminderItem_stable u now s res d0).1
        exact ih _ d hmem (by rw [hpat]; exact hp)

/-- Second submission of the same reminder items against reference
tables P and M: every item fails parent resolution exactly as before,
routes to update, or fails the due-date parse exactly as before, so
nothing is created. -/
theorem syncReminders_second (u now : Nat) (P : List Patient)
    (M : List Reminder) (ds : List Item) :
    ∀ (s : Store) (res : KindResult),
    s.patients.map pkey = P.map pkey →
    s.reminders.map remkey = M.map remkey →
    (∀ d ∈ ds, (linkParent u d P).isSome = true →
       (∃ r ∈ M, remMatch u (pyGet d "local_id") r = true) ∨ ddFails d = true) →
    (syncReminders u now (s, res) ds).1.reminders.map remkey = M.map remkey ∧
    (syncReminders u now (s, res) ds).2.created = res.created ∧
    (syncReminders u now (s, res) ds).1.patients = s.patients ∧
    (syncReminders u now (s, res) ds).1.records = s.records := by
  induction ds with
  | nil => intro s res h1 h2 _; exact ⟨h2, rfl, rfl, rfl⟩
  | cons d ds ih =>
      intro s res hmapP hmapM hall
      have hps : (linkParent u d s.patients).isSome = (linkParent u d P).isSome :=
        linkParent_isSome_of_map_eq u d hmapP
      cases hb : (linkParent u d P).isSome with
      | false =>
          have hnone : linkParent u d s.patients = none := by
            rw [hb] at hps
            exact Option.not_isSome_iff_eq_none.1 (by simp [hps])
          have hstep := reminderItem_of_noparent u now s res d hnone
          have hrw : syncReminders u now (s, res) (d :: ds) =
              syncReminders u now (s, { res with
                errors := res.errors ++ [(pyGet d "local_id", "Patient not found")] }) ds := by
            show syncReminders u now (syncReminderItem u now (s, res) d) ds = _
            rw [hstep]
          rw [hrw]
          have ih2 := ih s { res with
              errors := res.errors ++ [(pyGet d "local_id", "Patient not found")] }
            hmapP hmapM (fun d2 hd2 => hall d2 (List.mem_cons_of_mem d hd2))
          exact ⟨ih2.1, ih2.2.1, ih2.2.2.1, ih2.2.2.2⟩
      | true =>
          have hp : (linkParent u d s.patients).isSome = true := by rw [hps, hb]
          have hM := hall d (List.mem_cons_self d ds) hb
          have htail := fun d2 hd2 => hall d2 (List.mem_cons_of_mem d hd2)
          cases hfb : (s.reminders.find? (remMatch u (pyGet d "local_id"))).isSome with
          | true =>
              have hstep := reminderItem_of_found u now s res d hp hfb
              have hstable := reminderItem_stable u now s res d
              have ih2 := ih (syncReminderItem u now (s, res) d).1
                (syncReminderItem u now (s, res) d).2
                (by rw [hstable.1]; exact hmapP) (hstep.1.trans hmapM) htail
              exact ⟨ih2.1, ih2.2.1.trans hstep.2,
                ih2.2.2.1.trans hstable.1, ih2.2.2.2.trans hstable.2.1⟩
          | false =>
              have hdd : ddFails d = true := by
                rcases hM with hM | hM
                · exfalso
                  have hex : ∃ r ∈ s.reminders, remMatch u (pyGet d "local_id") r = true :=
                    exists_mem_of_map_eq (remMatch_congr u _) hmapM.symm hM
                  have := List.find?_isSome.2 hex
                  rw [hfb] at this
                  exact Bool.false_ne_true this
                · exact hM
              have hstep := reminderItem_of_ddfail u now s res d hp hfb hdd
              have ih2 := ih (syncReminderItem u now (s, res) d).1
                (syncReminderItem u now (s, res) d).2
                (by rw [hstep.1]; exact hmapP) (by rw [hstep.1]; exact hmapM) htail
              exact ⟨ih2.1, ih2.2.1.trans hstep.2,
                ih2.2.2.1.trans (congrArg Store.patients hstep.1),
                ih2.2.2.2.trans (congrArg Store.records hstep.1)⟩

/-- After one sync call, every submitted patient item has a matching
row, every record item whose parent resolves against the final
patients has a matching record row, and every reminder item whose
parent resolves either has a matching reminder row or fails its
due-date parse deterministically. -/
theorem sync_data_first_core (u now : Nat) (b : Batch) (s0 : Store) :
    (∀ d ∈ b.patients, ∃ p ∈ (sync_data u now b s0).2.patients,
       pMatch u (pyGet d "local_id") p = true) ∧
    (∀ d ∈ b.records,
       (linkParent u d (sync_data u now b s0).2.patients).isSome = true →
       ∃ r ∈ (sync_data u now b s0).2.records,
         rMatch u (pyGet d "local_id") r = true) ∧
    (∀ d ∈ b.reminders,
       (linkParent u d (sync_data u now b s0).2.patients).isSome = true →
       (∃ r ∈ (sync_data u now b s0).2.reminders,
          remMatch u (pyGet d "local_id") r = true) ∨ ddFails d = true) := by
  have hrem := syncReminders_stable u now b.reminders
    ((syncRecords u now
        ((syncPatients u now (s0, KindResult.empty) b.patients).1,
          KindResult.empty) b.records).1, KindResult.empty)
  have hrec := syncRecords_stable u now b.records
    ((syncPatients u now (s0, KindResult.empty) b.patients).1, KindResult.empty)
  refine ⟨?_, ?_, ?_⟩
  · intro d hd
    have h1 := syncPatients_ensures u now b.patients (s0, KindResult.empty) d hd
    show ∃ p ∈ (syncReminders u now
        ((syncRecords u now
           ((syncPatients u now (s0, KindResult.empty) b.patients).1,
             KindResult.empty) b.records).1, KindResult.empty)
        b.reminders).1.patients, pMatch u (pyGet d "local_id") p = true
    rw [hrem.1, hrec.1]
    exact h1
  · intro d hd hlink
    have hlink2 : (linkParent u d (syncReminders u now
        ((syncRecords u now
           ((syncPatients u now (s0, KindResult.empty) b.patients).1,
             KindResult.empty) b.records).1, KindResult.empty)
        b.reminders).1.patients).isSome = true := hlink
    rw [hrem.1] at hlink2
    have hlink3 : (linkParent u d (syncRecords u now
        ((syncPatients u now (s0, KindResult.empty) b.patients).1,
          KindResult.empty) b.records).1.patients).isSome = true := hlink2
    rw [hrec.1] at hlink3
    have h1 := syncRecords_ensures u now b.records
      ((syncPatients u now (s0, KindResult.empty) b.patients).1,
        KindResult.empty) d hd hlink3
    show ∃ r ∈ (syncReminders u now
        ((syncRecords u now
           ((syncPatients u now (s0, KindResult.empty) b.patients).1,
             KindResult.empty) b.records).1, KindResult.empty)
        b.reminders).1.records, rMatch u (pyGet d "local_id") r = true
    rw [hrem.2]
    exact h1
  · intro d hd hlink
    have hlink2 : (linkParent u d (syncReminders u now
        ((syncRecords u now
           ((syncPatients u now (s0, KindResult.empty) b.patients).1,
             KindResult.empty) b.records).1, KindResult.empty)
        b.reminders).1.patients).isSome = true := hlink
    rw [hrem.1] at hlink2
    have h1 := syncReminders_ensures u now b.reminders
      ((syncRecords u now
          ((syncPatients u now (s0, KindResult.empty) b.patients).1,
            KindResult.empty) b.records).1, KindResult.empty) d hd hlink2
    exact h1

/-- A sync call against a store in which every item already matches (or
deterministically fails) creates nothing and leaves all table lengths
unchanged. -/
theorem sync_data_second_core (u now : Nat) (b : Batch) (s1 : Store)
    (hA : ∀ d ∈ b.patients, ∃ p ∈ s1.patients, pMatch u (pyGet d "local_id") p = true)
    (hB : ∀ d ∈ b.records, (linkParent u d s1.patients).isSome = true →
       ∃ r ∈ s1.records, rMatch u (pyGet d "local_id") r = true)
    (hC : ∀ d ∈ b.reminders, (linkParent u d s1.patients).isSome = true →
       (∃ r ∈ s1.reminders, remMatch u (pyGet d "local_id") r = true) ∨ ddFails d = true) :
    (sync_data u now b s1).1.patients.created = 0 ∧
    (sync_data u now b s1).1.records.created = 0 ∧
    (sync_data u now b s1).1.reminders.created = 0 ∧
    (sync_data u now b s1).2.patients.length = s1.patients.length ∧
    (sync_data u now b s1).2.records.length = s1.records.length ∧
    (sync_data u now b s1).2.reminders.length = s1.reminders.length := by
  have hsp2 := syncPatients_second u now s1.patients b.patients s1 KindResult.empty rfl hA
  have hspst := syncPatients_stable u now b.patients (s1, KindResult.empty)
  have hmapR2 : (syncPatients u now (s1, KindResult.empty) b.patients).1.records.map rkey
      = s1.records.map rkey := by rw [hspst.1]
  have hsr2 := syncRecords_second u now s1.patients s1.records b.records
    (syncPatients u now (s1, KindResult.empty) b.patients).1 KindResult.empty
    hsp2.1 hmapR2 hB
  have hmapP3 : (syncRecords u now
      ((syncPatients u now (s1, KindResult.empty) b.patients).1, KindResult.empty)
      b.records).1.patients.map pkey = s1.patients.map pkey := by
    rw [hsr2.2.2.1]; exact hsp2.1
  have hmapM3 : (syncRecords u now
      ((syncPatients u now (s1, KindResult.empty) b.patients).1, KindResult.empty)
      b.records).1.reminders.map remkey = s1.reminders.map remkey := by
    rw [hsr2.2.2.2, hspst.2.1]
  have hsm2 := syncReminders_second u now s1.patients s1.reminders b.reminders
    (syncRecords u now
      ((syncPatients u now (s1, KindResult.empty) b.patients).1, KindResult.empty)
      b.records).1 KindResult.empty hmapP3 hmapM3 hC
  refine ⟨hsp2.2, hsr2.2.1, hsm2.2.1, ?_, ?_, ?_⟩
  · show (syncReminders u now
      ((syncRecords u now
        ((syncPatients u now (s1, KindResult.empty) b.patients).1, KindResult.empty)
        b.records).1, KindResult.empty) b.reminders).1.patients.length
      = s1.patients.length
    rw [hsm2.2.2.1, hsr2.2.2.1]
    have hlen := congrArg List.length hsp2.1
    simpa using hlen
  · show (syncReminders u now
      ((syncRecords u now
        ((syncPatients u now (s1, KindResult.empty) b.patients).1, KindResult.empty)
        b.records).1, KindResult.empty) b.reminders).1.records.length
      = s1.records.length
    rw [hsm2.2.2.2]
    have hlen := congrArg List.length hsr2.1
    simpa using hlen
  · have hlen := congrArg List.length hsm2.1
    simpa using hlen

/-! Decomposition and invariant lemmas used for the dependency-order
property. -/

theorem syncPatients_append (u now : Nat) (l1 l2 : List Item) :
    ∀ st : Store × KindResult,
    syncPatients u now st (l1 ++ l2)
      = syncPatients u now (syncPatients u now st l1) l2 := by
  induction l1 with
  | nil => intro st; rfl
  | cons d l1 ih => intro st; exact ih (syncPatientItem u now st d)

theorem syncRecords_append (u now : Nat) (l1 l2 : List Item) :
    ∀ st : Store × KindResult,
    syncRecords u now st (l1 ++ l2)
      = syncRecords u now (syncRecords u now st l1) l2 := by
  induction l1 with
  | nil => intro st; rfl
  | cons d l1 ih => intro st; exact ih (syncRecordItem u now st d)

theorem patientItem_keeps_nomatch (u now : Nat) (P1 : JVal) (s : Store)
    (res : KindResult) (d : Item)
    (hd : (pyGet d "local_id" == P1) = false)
    (hno : ∀ x ∈ s.patients, pMatch u P1 x = false) :
    ∀ x ∈ (syncPatientItem u now (s, res) d).1.patients, pMatch u P1 x = false := by
  intro x hx
  cases hf : s.patients.find? (pMatch u (pyGet d "local_id")) with
  | some y =>
      have hx2 : x ∈ updateFirst (pMatch u (pyGet d "local_id"))
          (applyPatientUpdate now d) s.patients := by
        simpa [syncPatientItem, hf] using hx
      rcases mem_updateFirst hx2 with h1 | ⟨y2, hy2, hq, rfl⟩
      · exact hno x h1
      · rw [pMatch_applyPatientUpdate]; exact hno y2 hy2
  | none =>
      have hx2 : x ∈ s.patients ++ [mkPatient u now s.nextPatientId d] := by
        simpa [syncPatientItem, hf] using hx
      rcases List.mem_append.1 hx2 with h1 | h1
      · exact hno x h1
      · have hxm : x = mkPatient u now s.nextPatientId d := by simpa using h1
        subst hxm
        simp [pMatch, mkPatient, hd]

theorem syncPatients_keeps_nomatch (u now : Nat) (P1 : JVal) :
    ∀ ds : List Item, (∀ d ∈ ds, (pyGet d "local_id" == P1) = false) →
    ∀ st : Store × KindResult,
    (∀ x ∈ st.1.patients, pMatch u P1 x = false) →
    ∀ x ∈ (syncPatients u now st ds).1.patients, pMatch u P1 x = false := by
  intro ds
  induction ds with
  | nil => intro _ st h; exact h
  | cons d ds ih =>
      intro hds st h
      obtain ⟨s, res⟩ := st
      exact ih (fun d2 hd2 => hds d2 (List.mem_cons_of_mem d hd2)) _
        (patientItem_keeps_nomatch u now P1 s res d
          (hds d (List.mem_cons_self d ds)) h)

theorem patientItem_keeps_unique (u now : Nat) (P1 : JVal) (p0 : Patient)
    (s : Store) (res : KindResult) (d : Item)
    (hd : (pyGet d "local_id" == P1) = false)
    (hp0 : pMatch u P1 p0 = true)
    (hmem : p0 ∈ s.patients)
    (huniq : ∀ x ∈ s.patients, pMatch u P1 x = true → x = p0) :
    p0 ∈ (syncPatientItem u now (s, res) d).1.patients ∧
    ∀ x ∈ (syncPatientItem u now (s, res) d).1.patients,
      pMatch u P1 x = true → x = p0 := by
  have h1 : p0.local_id = P1 := by
    have h2 := hp0
    simp only [pMatch, Bool.and_eq_true, beq_iff_eq] at h2
    exact h2.1
  have hpredp0 : pMatch u (pyGet d "local_id") p0 = false := by
    have hne : p0.local_id ≠ pyGet d "local_id" := by
      rw [h1]
      exact fun hc => (beq_eq_false_iff_ne.1 hd) hc.symm
    simp [pMatch, beq_eq_false_iff_ne.2 hne]
  cases hf : s.patients.find? (pMatch u (pyGet d "local_id")) with
  | some y =>
      constructor
      · have hmem2 := mem_updateFirst_of_not
          (q := pMatch u (pyGet d "local_id"))
          (f := applyPatientUpdate now d) hmem hpredp0
        simpa [syncPatientItem, hf] using hmem2
      · intro x hx hmx
        have hx2 : x ∈ updateFirst (pMatch u (pyGet d "local_id"))
            (applyPatientUpdate now d) s.patients := by
          simpa [syncPatientItem, hf] using hx
        rcases mem_updateFirst hx2 with hm1 | ⟨y2, hy2, hq, rfl⟩
        · exact huniq x hm1 hmx
        · rw [pMatch_applyPatientUpdate] at hmx
          have hy2p0 : y2 = p0 := huniq y2 hy2 hmx
          rw [hy2p0, hpredp0] at hq
          cases hq
  | none =>
      constructor
      · have hmem2 : p0 ∈ s.patients ++ [mkPatient u now s.nextPatientId d] :=
          List.mem_append_left _ hmem
        simpa [syncPatientItem, hf] using hmem2
      · intro x hx hmx
        have hx2 : x ∈ s.patients ++ [mkPatient u now s.nextPatientId d] := by
          simpa [syncPatientItem, hf] using hx
        rcases List.mem_append.1 hx2 with hm1 | hm1
        · exact huniq x hm1 hmx
        · have hxm : x = mkPatient u now s.nextPatientId d := by simpa using hm1
          subst hxm
          simp [pMatch, mkPatient, hd] at hmx

theorem syncPatients_keeps_unique (u now : Nat) (P1 : JVal) (p0 : Patient)
    (hp0 : pMatch u P1 p0 = true) :
    ∀ ds : List Item, (∀ d ∈ ds, (pyGet d "local_id" == P1) = false) →
    ∀ st : Store × KindResult, p0 ∈ st.1.patients →
    (∀ x ∈ st.1.patients, pMatch u P1 x = true → x = p0) →
    p0 ∈ (syncPatients u now st ds).1.patients ∧
    ∀ x ∈ (syncPatients u now st ds).1.patients, pMatch u P1 x = true → x = p0 := by
  intro ds
  induction ds with
  | nil => intro _ st hm hu; exact ⟨hm, hu⟩
  | cons d ds ih =>
      intro hds st hm hu
      obtain ⟨s, res⟩ := st
      have hstep := patientItem_keeps_unique u now P1 p0 s res d
        (hds d (List.mem_cons_self d ds)) hp0 hm hu
      exact ih (fun d2 hd2 => hds d2 (List.mem_cons_of_mem d hd2)) _
        hstep.1 hstep.2

theorem recordItem_keeps_nomatch (u now : Nat) (lidr : JVal) (s : Store)
    (res : KindResult) (d : Item)
    (hd : (pyGet d "local_id" == lidr) = false)
    (hno : ∀ x ∈ s.records, rMatch u lidr x = false) :
    ∀ x ∈ (syncRecordItem u now (s, res) d).1.records, rMatch u lidr x = false := by
  intro x hx
  cases hl : linkParent u d s.patients with
  | none =>
      have hx2 : x ∈ s.records := by simpa [syncRecordItem, hl] using hx
      exact hno x hx2
  | some pat =>
      cases hf : s.records.find? (rMatch u (pyGet d "local_id")) with
      | some y =>
          have hx2 : x ∈ updateFirst (rMatch u (pyGet d "local_id"))
              (applyRecordUpdate now d) s.records := by
            simpa [syncRecordItem, hl, hf] using hx
          rcases mem_updateFirst hx2 with h1 | ⟨y2, hy2, hq, rfl⟩
          · exact hno x h1
          · rw [rMatch_applyRecordUpdate]; exact hno y2 hy2
      | none =>
          have hx2 : x ∈ s.records ++ [mkRecord u now s.nextRecordId pat.id d] := by
            simpa [syncRecordItem, hl, hf] using hx
          rcases List.mem_append.1 hx2 with h1 | h1
          · exact hno x h1
          · have hxm : x = mkRecord u now s.nextRecordId pat.id d := by
              simpa using h1
            subst hxm
            simp [rMatch, mkRecord, hd]

theorem syncRecords_keeps_nomatch (u now : Nat) (lidr : JVal) :
    ∀ ds : List Item, (∀ d ∈ ds, (pyGet d "local_id" == lidr) = false) →
    ∀ st : Store × KindResult,
    (∀ x ∈ st.1.records, rMatch u lidr x = false) →
    ∀ x ∈ (syncRecords u now st ds).1.records, rMatch u lidr x = false := by
  intro ds
  induction ds with
  | nil => intro _ st h; exact h
  | cons d ds ih =>
      intro hds st h
      obtain ⟨s, res⟩ := st
      exact ih (fun d2 hd2 => hds d2 (List.mem_cons_of_mem d hd2)) _
        (recordItem_keeps_nomatch u now lidr s res d
          (hds d (List.mem_cons_self d ds)) h)

theorem recordItem_keeps_elem (u now : Nat) (r0 : MedicalRecord) (s : Store)
    (res : KindResult) (d : Item)
    (hne : rMatch u (pyGet d "local_id") r0 = false)
    (hmem : r0 ∈ s.records) :
    r0 ∈ (syncRecordItem u now (s, res) d).1.records := by
  cases hl : linkParent u d s.patients with
  | none => simpa [syncRecordItem, hl] using hmem
  | some pat =>
      cases hf : s.records.find? (rMatch u (pyGet d "local_id")) with
      | some y =>
          have hmem2 := mem_updateFirst_of_not
            (q := rMatch u (pyGet d "local_id"))
            (f := applyRecordUpdate now d) hmem hne
          simpa [syncRecordItem, hl, hf] using hmem2
      | none =>
          have hmem2 : r0 ∈ s.records ++ [mkRecord u now s.nextRecordId pat.id d] :=
            List.mem_append_left _ hmem
          simpa [syncRecordItem, hl, hf] using hmem2

theorem syncRecords_keeps_elem (u now : Nat) (r0 : MedicalRecord) :
    ∀ ds : List Item, (∀ d ∈ ds, rMatch u (pyGet d "local_id") r0 = false) →
    ∀ st : Store × KindResult, r0 ∈ st.1.records →
    r0 ∈ (syncRecords u now st ds).1.records := by
  intro ds
  induction ds with
  | nil => intro _ st h; exact h
  | cons d ds ih =>
      intro hds st h
      obtain ⟨s, res⟩ := st
      exact ih (fun d2 hd2 => hds d2 (List.mem_cons_of_mem d hd2)) _
        (recordItem_keeps_elem u now r0 s res d
          (hds d (List.mem_cons_self d ds)) h)

/-! Concrete scenarios used by the counterexample and evaluation
theorems below. -/

/-- Owner 2 creates one patient through sync; it receives server id 1. -/
def c1setup : Batch :=
  { patients := [[("local_id", JVal.str "px"), ("first_name", JVal.str "Anna")]]
    records := [], reminders := [] }

def c1store : Store := (sync_data 2 1 c1setup emptyStore).2

/-- Owner 1 then submits a record naming server-side parent id 1, a
patient belonging to owner 2. -/
def c1batch : Batch :=
  { patients := []
    records := [[("local_id", JVal.str "r1"), ("patient_id", JVal.int 1)]]
    reminders := [] }

/-- Three new patients where the second carries a malformed age value. -/
def c4batch : Batch :=
  { patients :=
      [[("local_id", JVal.str "a"), ("first_name", JVal.str "A"), ("age", JVal.int 31)],
       [("local_id", JVal.str "b"), ("first_name", JVal.str "B"),
        ("age", JVal.str "not-a-number")],
       [("local_id", JVal.str "c"), ("first_name", JVal.str "C"), ("age", JVal.int 29)]]
    records := [], reminders := [] }

/-- A patient item with no local id at all. -/
def c5batch1 : Batch :=
  { patients := [[("first_name", JVal.str "A")]], records := [], reminders := [] }

/-- A second, different patient item also with no local id. -/
def c5batch2 : Batch :=
  { patients := [[("first_name", JVal.str "B")]], records := [], reminders := [] }

def c5store1 : Store := (sync_data 1 1 c5batch1 emptyStore).2

/-- A reminder payload omitting the due date, parented on a patient of
the same batch. -/
def c6batch : Batch :=
  { patients := [[("local_id", JVal.str "p1")]]
    records := []
    reminders := [[("local_id", JVal.str "m1"), ("patient_local_id", JVal.str "p1"),
                   ("title", JVal.str "Check")]] }

/-- first_name arrives under both spellings, the underscore one falsy. -/
def c7batch : Batch :=
  { patients := [[("local_id", JVal.str "p1"), ("first_name", JVal.str ""),
                  ("firstName", JVal.str "Jane")]]
    records := [], reminders := [] }

def c8batch1 : Batch :=
  { patients := [[("local_id", JVal.str "p1"), ("first_name", JVal.str "Old")]]
    records := [], reminders := [] }

def c8store1 : Store := (sync_data 1 1 c8batch1 emptyStore).2

/-- An update payload carrying the new name only in camelCase. -/
def c8batch2 : Batch :=
  { patients := [[("local_id", JVal.str "p1"), ("firstName", JVal.str "New")]]
    records := [], reminders := [] }

/-- C1 counterexample: a record payload carrying server-side parent id 1
submitted by owner 1, while patient 1 belongs to owner 2.  The claim
requires ParentNotFound and no created record; the code resolves the
foreign-owned patient and creates the record with no error. -/
theorem C1_counterexample :
    (c1store.patients.map (fun p => (p.id, p.created_by)) = [(1, 2)]) ∧
    (sync_data 1 2 c1batch c1store).1.records.created = 1 ∧
    (sync_data 1 2 c1batch c1store).1.records.errors = [] ∧
    (sync_data 1 2 c1batch c1store).2.records.map
      (fun r => (r.patient_id, r.created_by)) = [(1, 1)] := by
  decide

/-- C4 counterexample: in a batch of three patient items where the
second has a malformed age field, all three are created and the
patients errors list is empty, while the claim requires exactly one
error entry naming item 2. -/
theorem C4_counterexample :
    (sync_data 1 3 c4batch emptyStore).1.patients.created = 3 ∧
    (sync_data 1 3 c4batch emptyStore).1.patients.errors = [] ∧
    (sync_data 1 3 c4batch emptyStore).2.patients.map
      (fun p => getField p.fields "age") =
      [JVal.int 31, JVal.str "not-a-number", JVal.int 29] := by
  decide

/-- C5 counterexample: an item without a local id submitted by the
owner of an existing entity whose stored local id is null routes to
update rather than create, because filter_by(local_id=None) compiles
to IS NULL and matches the stored null. -/
theorem C5_counterexample :
    (c5store1.patients.map (fun p => p.local_id) = [JVal.null]) ∧
    (sync_data 1 2 c5batch2 c5store1).1.patients.created = 0 ∧
    (sync_data 1 2 c5batch2 c5store1).1.patients.updated = 1 ∧
    (sync_data 1 2 c5batch2 c5store1).2.patients.map
      (fun p => getField p.fields "first_name") = [JVal.str "B"] := by
  decide

/-- C6: a reminder payload omitting the due date is not treated as an
item-level failure: the route counts it as created with no entry in
the reminders errors list, and the stored row carries a null due date
in violation of the model's nullable=False declaration, so the commit
of the reminders kind cannot succeed against the declared schema. -/
theorem C6_thm :
    (sync_data 1 7 c6batch emptyStore).1.reminders.created = 1 ∧
    (sync_data 1 7 c6batch emptyStore).1.reminders.errors = [] ∧
    (sync_data 1 7 c6batch emptyStore).2.reminders.map reminderDueDateNotNull
      = [false] := by
  decide

/-- C7 counterexample: first_name arrives as the empty string and
firstName as Jane; Python or discards the falsy underscore value, so
the created patient stores Jane, while the claim requires the
underscore value whatever it is. -/
theorem C7_counterexample :
    (sync_data 1 5 c7batch emptyStore).1.patients.created = 1 ∧
    (sync_data 1 5 c7batch emptyStore).2.patients.map
      (fun p => getField p.fields "first_name") = [JVal.str "Jane"] := by
  decide

/-- C8 counterexample: on the update path a field supplied only as
firstName is silently dropped (hasattr on the entity is false for the
camelCase spelling), so the existing value survives, while the claim
requires the camelCase field to be applied as on the create path. -/
theorem C8_counterexample :
    (sync_data 1 2 c8batch2 c8store1).1.patients.updated = 1 ∧
    (sync_data 1 2 c8batch2 c8store1).2.patients.map
      (fun p => getField p.fields "first_name") = [JVal.str "Old"] := by
  decide

/-- NOT NULL columns of Patient that payloads can leave null
(backend/models/patient.py lines 15-18: first_name, last_name, age and
gender are nullable=False; patient_uid is server-generated and always
a string in the model).  SQLite enforces these when the row flushes. -/
def patientRowOk (p : Patient) : Bool :=
  getField p.fields "first_name" != .null &&
    getField p.fields "last_name" != .null &&
    getField p.fields "age" != .null &&
    getField p.fields "gender" != .null

/-- NOT NULL columns of Reminder that payloads can leave null
(backend/models/reminder.py lines 14, 17 and 21: reminder_type, title
and due_date are nullable=False). -/
def reminderRowOk (r : Reminder) : Bool :=
  getField r.fields "reminder_type" != .null &&
    getField r.fields "title" != .null &&
    reminderDueDateNotNull r

/-- Whether the patients-kind commit (sync.py line 66) succeeds: every
row of the patients table satisfies the declared NOT NULL columns.  On
a store whose committed rows already satisfy the schema this agrees
with checking only the rows inserted or updated by this request. -/
def patientsCommitOk (u now : Nat) (b : Batch) (s : Store) : Bool :=
  (syncPatients u now (s, KindResult.empty) b.patients).1.patients.all patientRowOk

/-- Whether the reminders-kind commit (sync.py line 179) succeeds,
likewise.  MedicalRecord has no payload-writable NOT NULL column
(patient_id is always set from the resolved parent), so the records
commit at line 125 cannot raise a NOT NULL violation. -/
def remindersCommitOk (u now : Nat) (b : Batch) (s : Store) : Bool :=
  ((syncReminders u now
      ((syncRecords u now
          ((syncPatients u now (s, KindResult.empty) b.patients).1,
            KindResult.empty) b.records).1,
        KindResult.empty) b.reminders).1.reminders).all reminderRowOk

/-- One full POST /api/sync request including the per-kind commit
points (sync.py lines 66, 125, 179).  SQLite enforces the models'
NOT NULL declarations when pending rows flush: a violation raises
IntegrityError at the commit, the outer handler (lines 187-189) rolls
the uncommitted kind back and the request returns a 500 error, while
kinds committed earlier persist.  A failed patients commit persists
nothing; a failed reminders commit persists the patients and records
and reverts the reminders table to its pre-loop state. -/
def sync_request (u now : Nat) (b : Batch) (s : Store) :
    Except String SyncResults × Store :=
  if patientsCommitOk u now b s then
    if remindersCommitOk u now b s then
      (.ok (sync_data u now b s).1, (sync_data u now b s).2)
    else
      (.error "IntegrityError: NOT NULL constraint failed",
       (syncRecords u now
          ((syncPatients u now (s, KindResult.empty) b.patients).1,
            KindResult.empty) b.records).1)
  else
    (.error "IntegrityError: NOT NULL constraint failed", s)

theorem sync_request_of_ok (u now : Nat) (b : Batch) (s : Store)
    (h : (sync_request u now b s).1.isOk = true) :
    sync_request u now b s
      = (Except.ok (sync_data u now b s).1, (sync_data u now b s).2) := by
  by_cases hg1 : patientsCommitOk u now b s = true
  · by_cases hg2 : remindersCommitOk u now b s = true
    · simp [sync_request, hg1, hg2]
    · simp only [Bool.not_eq_true] at hg2
      simp [sync_request, hg1, hg2, Except.isOk, Except.toBool] at h
  · simp only [Bool.not_eq_true] at hg1
    simp [sync_request, hg1, Except.isOk, Except.toBool] at h

theorem sync_request_of_g1_false (u now : Nat) (b : Batch) (s : Store)
    (h : patientsCommitOk u now b s = false) :
    sync_request u now b s
      = (.error "IntegrityError: NOT NULL constraint failed", s) := by
  simp [sync_request, h]

theorem sync_request_of_g2_false (u now : Nat) (b : Batch) (s : Store)
    (h1 : patientsCommitOk u now b s = true)
    (h2 : remindersCommitOk u now b s = false) :
    sync_request u now b s
      = (.error "IntegrityError: NOT NULL constraint failed",
         (syncRecords u now
            ((syncPatients u now (s, KindResult.empty) b.patients).1,
              KindResult.empty) b.records).1) := by
  simp [sync_request, h1, h2]

/-- C2 counterexample: for the batch whose reminder omits its required
due date, the first request fails its reminders-kind commit and
persists no reminder; the second call therefore routes the reminder
item through the create path again — its results report created = 1
and updated = 0 for the reminders kind, not created = 0 with every
item routed through update — and the request fails again. -/
theorem C2_counterexample :
    (sync_request 1 1 c6batch emptyStore).1.isOk = false ∧
    (sync_request 1 1 c6batch emptyStore).2.reminders = [] ∧
    (sync_data 1 2 c6batch
      (sync_request 1 1 c6batch emptyStore).2).1.reminders.created = 1 ∧
    (sync_data 1 2 c6batch
      (sync_request 1 1 c6batch emptyStore).2).1.reminders.updated = 0 ∧
    (sync_request 1 2 c6batch
      (sync_request 1 1 c6batch emptyStore).2).1.isOk = false := by
  decide

/-- C2 amended: when the first submission commits, resubmitting the
same batch leaves every entity count unchanged whatever happens to the
second request's own commits, and whenever the resubmission itself
also commits its results report created = 0 for every kind — every
item routes to update or fails exactly as before.  (A batch that never
commits, such as one whose reminder omits its due date, re-runs the
create path on every resubmission instead.) -/
theorem C2_amended_thm (u now1 now2 : Nat) (b : Batch) (s0 : Store)
    (h1 : (sync_request u now1 b s0).1.isOk = true) :
    (∀ res2, (sync_request u now2 b (sync_request u now1 b s0).2).1
        = Except.ok res2 →
      res2.patients.created = 0 ∧ res2.records.created = 0 ∧
      res2.reminders.created = 0) ∧
    (sync_request u now2 b (sync_request u now1 b s0).2).2.patients.length
      = (sync_request u now1 b s0).2.patients.length ∧
    (sync_request u now2 b (sync_request u now1 b s0).2).2.records.length
      = (sync_request u now1 b s0).2.records.length ∧
    (sync_request u now2 b (sync_request u now1 b s0).2).2.reminders.length
      = (sync_request u now1 b s0).2.reminders.length := by
  have hreq1 := sync_request_of_ok u now1 b s0 h1
  have hs1 : (sync_request u now1 b s0).2 = (sync_data u now1 b s0).2 :=
    congrArg Prod.snd hreq1
  rw [hs1]
  have hfirst := sync_data_first_core u now1 b s0
  have hsecond := sync_data_second_core u now2 b (sync_data u now1 b s0).2
    hfirst.1 hfirst.2.1 hfirst.2.2
  by_cases hg1 : patientsCommitOk u now2 b (sync_data u now1 b s0).2 = true
  · by_cases hg2 : remindersCommitOk u now2 b (sync_data u now1 b s0).2 = true
    · have hreq2 : sync_request u now2 b (sync_data u now1 b s0).2
          = (Except.ok (sync_data u now2 b (sync_data u now1 b s0).2).1,
             (sync_data u now2 b (sync_data u now1 b s0).2).2) := by
        simp [sync_request, hg1, hg2]
      rw [hreq2]
      refine ⟨?_, hsecond.2.2.2.1, hsecond.2.2.2.2.1, hsecond.2.2.2.2.2⟩
      intro res2 hres2
      have hres2b : Except.ok (sync_data u now2 b (sync_data u now1 b s0).2).1
          = Except.ok res2 := hres2
      have hres2c := Except.ok.inj hres2b
      rw [← hres2c]
      exact ⟨hsecond.1, hsecond.2.1, hsecond.2.2.1⟩
    · simp only [Bool.not_eq_true] at hg2
      rw [sync_request_of_g2_false u now2 b _ hg1 hg2]
      refine ⟨(by intro res2 hres2; cases hres2), ?_, ?_, ?_⟩
      · have hsp2 := syncPatients_second u now2
          (sync_data u now1 b s0).2.patients b.patients
          (sync_data u now1 b s0).2 KindResult.empty rfl hfirst.1
        have hrecst := (syncRecords_stable u now2 b.records
          ((syncPatients u now2
              ((sync_data u now1 b s0).2, KindResult.empty) b.patients).1,
            KindResult.empty)).1
        show (syncRecords u now2
            ((syncPatients u now2
                ((sync_data u now1 b s0).2, KindResult.empty) b.patients).1,
              KindResult.empty) b.records).1.patients.length
          = (sync_data u now1 b s0).2.patients.length
        rw [hrecst]
        have hlen := congrArg List.length hsp2.1
        simpa using hlen
      · have hsp2 := syncPatients_second u now2
          (sync_data u now1 b s0).2.patients b.patients
          (sync_data u now1 b s0).2 KindResult.empty rfl hfirst.1
        have hspst := syncPatients_stable u now2 b.patients
          ((sync_data u now1 b s0).2, KindResult.empty)
        have hmapR : (syncPatients u now2
            ((sync_data u now1 b s0).2, KindResult.empty)
            b.patients).1.records.map rkey
            = (sync_data u now1 b s0).2.records.map rkey := by
          rw [hspst.1]
        have hsr2 := syncRecords_second u now2
          (sync_data u now1 b s0).2.patients (sync_data u now1 b s0).2.records
          b.records
          (syncPatients u now2
            ((sync_data u now1 b s0).2, KindResult.empty) b.patients).1
          KindResult.empty hsp2.1 hmapR hfirst.2.1
        have hlen := congrArg List.length hsr2.1
        simpa using hlen
      · have hspst := syncPatients_stable u now2 b.patients
          ((sync_data u now1 b s0).2, KindResult.empty)
        have hrecst := (syncRecords_stable u now2 b.records
          ((syncPatients u now2
              ((sync_data u now1 b s0).2, KindResult.empty) b.patients).1,
            KindResult.empty)).2
        show (syncRecords u now2
            ((syncPatients u now2
                ((sync_data u now1 b s0).2, KindResult.empty) b.patients).1,
              KindResult.empty) b.records).1.reminders.length
          = (sync_data u now1 b s0).2.reminders.length
        rw [hrecst]
        have hremeq : (syncPatients u now2
            ((sync_data u now1 b s0).2, KindResult.empty)
            b.patients).1.reminders = (sync_data u now1 b s0).2.reminders :=
          hspst.2.1
        rw [hremeq]
  · simp only [Bool.not_eq_true] at hg1
    rw [sync_request_of_g1_false u now2 b _ hg1]
    exact ⟨(by intro res2 hres2; cases hres2), rfl, rfl, rfl⟩

/-- A batch whose reminder carries a valid due date: both submissions
commit, exercising the amended idempotence theorem end to end. -/
def c2goodbatch : Batch :=
  { patients := [[("local_id", JVal.str "loc1"), ("first_name", JVal.str "A")]]
    records := [[("local_id", JVal.str "r1"), ("patient_local_id", JVal.str "loc1")]]
    reminders := [[("local_id", JVal.str "m1"),
                   ("patient_local_id", JVal.str "loc1"),
                   ("due_date", JVal.str "2026-01-15")]] }

theorem C2_amended_witness :
    ((sync_request 1 1 c2goodbatch emptyStore).1.isOk = true) ∧
    ((∀ res2, (sync_request 1 2 c2goodbatch
          (sync_request 1 1 c2goodbatch emptyStore).2).1 = Except.ok res2 →
        res2.patients.created = 0 ∧ res2.records.created = 0 ∧
        res2.reminders.created = 0) ∧
     (sync_request 1 2 c2goodbatch
        (sync_request 1 1 c2goodbatch emptyStore).2).2.patients.length
       = (sync_request 1 1 c2goodbatch emptyStore).2.patients.length ∧
     (sync_request 1 2 c2goodbatch
        (sync_request 1 1 c2goodbatch emptyStore).2).2.records.length
       = (sync_request 1 1 c2goodbatch emptyStore).2.records.length ∧
     (sync_request 1 2 c2goodbatch
        (sync_request 1 1 c2goodbatch emptyStore).2).2.reminders.length
       = (sync_request 1 1 c2goodbatch emptyStore).2.reminders.length) :=
  ⟨by decide, C2_amended_thm 1 1 2 c2goodbatch emptyStore (by decide)⟩

/-- C9: the incremental pull returns exactly the entities whose
last-modified stamp strictly exceeds the since watermark — patients
scoped by their owner column, records and reminders through the join
on their parent patient's owner — and an absent since parameter
behaves exactly as the minimum representable timestamp. -/
theorem C9_thm (u t : Nat) (s : Store) :
    (∀ p : Patient, p ∈ (get_latest u (some t) s).patients ↔
       p ∈ s.patients ∧ p.created_by = u ∧ t < p.updated_at) ∧
    (∀ r : MedicalRecord, r ∈ (get_latest u (some t) s).records ↔
       r ∈ s.records ∧
         (∃ p ∈ s.patients, p.id = r.patient_id ∧ p.created_by = u) ∧
         t < r.updated_at) ∧
    (∀ r : Reminder, r ∈ (get_latest u (some t) s).reminders ↔
       r ∈ s.reminders ∧
         (∃ p ∈ s.patients, p.id = r.patient_id ∧ p.created_by = u) ∧
         t < r.updated_at) ∧
    get_latest u none s = get_latest u (some datetimeMin) s := by
  refine ⟨?_, ?_, ?_, rfl⟩
  · intro p
    simp [get_latest, List.mem_filter, and_assoc]
  · intro r
    simp [get_latest, List.mem_filter, List.any_eq_true, and_assoc]
  · intro r
    simp [get_latest, List.mem_filter, List.any_eq_true, and_assoc]

/-- C10: a record or reminder payload carrying neither a server-side
parent id nor a parent local id fails parent resolution before the
update lookup runs, so it is reported as Patient not found and the
store — including the matching existing row — is left untouched. -/
theorem C10_thm (u now : Nat) (s : Store) (res : KindResult) (d e : Item)
    (hd1 : d.lookup "patient_id" = none)
    (hd2 : d.lookup "patient_local_id" = none)
    (he1 : e.lookup "patient_id" = none)
    (he2 : e.lookup "patient_local_id" = none)
    (_hr : ∃ r ∈ s.records, rMatch u (pyGet d "local_id") r = true)
    (_hm : ∃ m ∈ s.reminders, remMatch u (pyGet e "local_id") m = true) :
    syncRecordItem u now (s, res) d =
      (s, { res with
            errors := res.errors ++ [(pyGet d "local_id", "Patient not found")] }) ∧
    syncReminderItem u now (s, res) e =
      (s, { res with
            errors := res.errors ++ [(pyGet e "local_id", "Patient not found")] }) := by
  have hld : linkParent u d s.patients = none := by
    simp [linkParent, pyGet, hd1, hd2, truthy]
  have hle : linkParent u e s.patients = none := by
    simp [linkParent, pyGet, he1, he2, truthy]
  exact ⟨recordItem_of_noparent u now s res d hld,
    reminderItem_of_noparent u now s res e hle⟩

/-- Store for the C10 witness: one record and one reminder, both owned
by owner 1 with known local ids. -/
def c10store : Store :=
  { patients := []
    records := [{ id := 1, patient_id := 1, created_by := 1,
                  local_id := JVal.str "r1", updated_at := 0, fields := [] }]
    reminders := [{ id := 1, patient_id := 1, created_by := 1,
                    local_id := JVal.str "m1", updated_at := 0, fields := [] }]
    nextPatientId := 2, nextRecordId := 2, nextReminderId := 2 }

theorem C10_witness :
    (([("local_id", JVal.str "r1")] : Item).lookup "patient_id" = none ∧
     ([("local_id", JVal.str "r1")] : Item).lookup "patient_local_id" = none ∧
     ([("local_id", JVal.str "m1")] : Item).lookup "patient_id" = none ∧
     ([("local_id", JVal.str "m1")] : Item).lookup "patient_local_id" = none ∧
     (∃ r ∈ c10store.records,
        rMatch 1 (pyGet [("local_id", JVal.str "r1")] "local_id") r = true) ∧
     (∃ m ∈ c10store.reminders,
        remMatch 1 (pyGet [("local_id", JVal.str "m1")] "local_id") m = true)) ∧
    (syncRecordItem 1 0 (c10store, KindResult.empty) [("local_id", JVal.str "r1")] =
      (c10store, { KindResult.empty with
        errors := KindResult.empty.errors ++
          [(pyGet [("local_id", JVal.str "r1")] "local_id", "Patient not found")] }) ∧
     syncReminderItem 1 0 (c10store, KindResult.empty) [("local_id", JVal.str "m1")] =
      (c10store, { KindResult.empty with
        errors := KindResult.empty.errors ++
          [(pyGet [("local_id", JVal.str "m1")] "local_id", "Patient not found")] })) :=
  ⟨by decide,
   C10_thm 1 0 c10store KindResult.empty
     [("local_id", JVal.str "r1")] [("local_id", JVal.str "m1")]
     (by decide) (by decide) (by decide) (by decide) (by decide) (by decide)⟩

/-! Field-map lemmas for the update path. -/

theorem lookup_setField_self (fs : List (String × JVal)) (k : String) (v : JVal) :
    (setField fs k v).lookup k = some v := by
  induction fs with
  | nil => simp [setField]
  | cons kv fs ih =>
      obtain ⟨k1, v1⟩ := kv
      by_cases h : k1 = k
      · simp [setField, h]
      · have h1 : (k1 == k) = false := beq_eq_false_iff_ne.2 h
        have h2 : (k == k1) = false := beq_eq_false_iff_ne.2 (Ne.symm h)
        simp [setField, h1, List.lookup, h2, ih]

theorem lookup_setField_ne (fs : List (String × JVal)) (k k2 : String) (v : JVal)
    (h : k2 ≠ k) : (setField fs k v).lookup k2 = fs.lookup k2 := by
  induction fs with
  | nil => simp [setField, List.lookup, beq_eq_false_iff_ne.2 h]
  | cons kv fs ih =>
      obtain ⟨k1, v1⟩ := kv
      by_cases h1 : k1 = k
      · subst h1
        simp [setField, List.lookup, beq_eq_false_iff_ne.2 h]
      · have h2 : (k1 == k) = false := beq_eq_false_iff_ne.2 h1
        by_cases h3 : k2 = k1
        · subst h3
          simp [setField, h2, List.lookup]
        · have h4 : (k2 == k1) = false := beq_eq_false_iff_ne.2 h3
          simp [setField, h2, List.lookup, h4, ih]

theorem getField_setField_self (fs : List (String × JVal)) (k : String) (v : JVal) :
    getField (setField fs k v) k = v := by
  simp [getField, lookup_setField_self]

theorem getField_setField_ne (fs : List (String × JVal)) (k k2 : String) (v : JVal)
    (h : k2 ≠ k) : getField (setField fs k v) k2 = getField fs k2 := by
  simp [getField, lookup_setField_ne fs k k2 v h]

theorem getField_applyItemFields_absent (deny attrs : List String) (k : String) :
    ∀ (d : Item) (fs : List (String × JVal)),
    (∀ kv ∈ d, kv.1 ≠ k) →
    getField (applyItemFields deny attrs fs d) k = getField fs k := by
  intro d
  induction d with
  | nil => intro fs _; rfl
  | cons kv d ih =>
      intro fs h
      have hk : kv.1 ≠ k := h kv (List.mem_cons_self kv d)
      have htail : ∀ kv2 ∈ d, kv2.1 ≠ k :=
        fun kv2 h2 => h kv2 (List.mem_cons_of_mem _ h2)
      have hstep : getField
          (if deny.contains kv.1 then fs
           else if attrs.contains kv.1 then setField fs kv.1 kv.2 else fs) k
          = getField fs k := by
        by_cases h1 : kv.1 ∈ deny
        · simp [h1]
        · by_cases h2 : kv.1 ∈ attrs
          · simp [h1, h2, getField_setField_ne fs kv.1 k kv.2 (Ne.symm hk)]
          · simp [h1, h2]
      calc getField (applyItemFields deny attrs fs (kv :: d)) k
          = getField (applyItemFields deny attrs
              (if deny.contains kv.1 then fs
               else if attrs.contains kv.1 then setField fs kv.1 kv.2 else fs) d) k := rfl
        _ = getField
              (if deny.contains kv.1 then fs
               else if attrs.contains kv.1 then setField fs kv.1 kv.2 else fs) k := ih _ htail
        _ = getField fs k := hstep

/-- C1 amended: when the payload carries a truthy server-side parent
id, the parent is looked up by primary key alone with no ownership
verification; the item fails with Patient not found exactly when no
Patient with that id exists at all, and when one exists — whatever its
owner — the record item is processed (created or updated) with no
error.  The reminder loop resolves parents through the same lookup. -/
theorem C1_amended_thm (u now : Nat) (s : Store) (res : KindResult) (d e : Item)
    (hd : truthy (pyGet d "patient_id") = true)
    (he : truthy (pyGet e "patient_id") = true) :
    (s.patients.find? (fun p => jvalIsId (pyGet d "patient_id") p.id) = none →
       syncRecordItem u now (s, res) d =
         (s, { res with
               errors := res.errors ++ [(pyGet d "local_id", "Patient not found")] })) ∧
    (∀ q, s.patients.find? (fun p => jvalIsId (pyGet d "patient_id") p.id) = some q →
       linkParent u d s.patients = some q ∧
       (syncRecordItem u now (s, res) d).2.errors = res.errors ∧
       (syncRecordItem u now (s, res) d).2.created
           + (syncRecordItem u now (s, res) d).2.updated
         = res.created + res.updated + 1) ∧
    (s.patients.find? (fun p => jvalIsId (pyGet e "patient_id") p.id) = none →
       syncReminderItem u now (s, res) e =
         (s, { res with
               errors := res.errors ++ [(pyGet e "local_id", "Patient not found")] })) ∧
    (∀ q, s.patients.find? (fun p => jvalIsId (pyGet e "patient_id") p.id) = some q →
       linkParent u e s.patients = some q) := by
  have hlp : linkParent u d s.patients
      = s.patients.find? (fun p => jvalIsId (pyGet d "patient_id") p.id) := by
    simp [linkParent, hd]
  have hlpe : linkParent u e s.patients
      = s.patients.find? (fun p => jvalIsId (pyGet e "patient_id") p.id) := by
    simp [linkParent, he]
  refine ⟨?_, ?_, ?_, ?_⟩
  · intro hnone
    exact recordItem_of_noparent u now s res d (hlp.trans hnone)
  · intro q hq
    have hl : linkParent u d s.patients = some q := hlp.trans hq
    refine ⟨hl, ?_, ?_⟩
    · cases hff : s.records.find? (rMatch u (pyGet d "local_id")) <;>
        simp [syncRecordItem, hl, hff]
    · cases hff : s.records.find? (rMatch u (pyGet d "local_id")) with
      | some x => simp [syncRecordItem, hl, hff]; omega
      | none => simp [syncRecordItem, hl, hff]; omega
  · intro hnone
    exact reminderItem_of_noparent u now s res e (hlpe.trans hnone)
  · intro q hq
    exact hlpe.trans hq

def c1d : Item := [("local_id", JVal.str "r1"), ("patient_id", JVal.int 1)]

def c1e : Item := [("local_id", JVal.str "m1"), ("patient_id", JVal.int 1)]

theorem C1_amended_witness :
    (truthy (pyGet c1d "patient_id") = true ∧
     truthy (pyGet c1e "patient_id") = true) ∧
    ((c1store.patients.find? (fun p => jvalIsId (pyGet c1d "patient_id") p.id) = none →
       syncRecordItem 1 2 (c1store, KindResult.empty) c1d =
         (c1store, { KindResult.empty with
           errors := KindResult.empty.errors ++
             [(pyGet c1d "local_id", "Patient not found")] })) ∧
     (∀ q, c1store.patients.find? (fun p => jvalIsId (pyGet c1d "patient_id") p.id)
         = some q →
       linkParent 1 c1d c1store.patients = some q ∧
       (syncRecordItem 1 2 (c1store, KindResult.empty) c1d).2.errors
         = KindResult.empty.errors ∧
       (syncRecordItem 1 2 (c1store, KindResult.empty) c1d).2.created
           + (syncRecordItem 1 2 (c1store, KindResult.empty) c1d).2.updated
         = KindResult.empty.created + KindResult.empty.updated + 1) ∧
     (c1store.patients.find? (fun p => jvalIsId (pyGet c1e "patient_id") p.id) = none →
       syncReminderItem 1 2 (c1store, KindResult.empty) c1e =
         (c1store, { KindResult.empty with
           errors := KindResult.empty.errors ++
             [(pyGet c1e "local_id", "Patient not found")] })) ∧
     (∀ q, c1store.patients.find? (fun p => jvalIsId (pyGet c1e "patient_id") p.id)
         = some q →
       linkParent 1 c1e c1store.patients = some q)) :=
  ⟨⟨by decide, by decide⟩,
   C1_amended_thm 1 2 c1store KindResult.empty c1d c1e (by decide) (by decide)⟩

/-- C5 amended: an item with an absent local id carries a null lookup
key, and filter_by(local_id=None) compiles to IS NULL, matching rows
whose stored local id is null: the item is a pure create only when the
owner holds no such row, and otherwise updates the first one. -/
theorem C5_amended_thm (u now : Nat) (s : Store) (res : KindResult) (d : Item)
    (habsent : d.lookup "local_id" = none) :
    (s.patients.find? (pMatch u JVal.null) = none →
       (syncPatientItem u now (s, res) d).1.patients
         = s.patients ++ [mkPatient u now s.nextPatientId d] ∧
       (syncPatientItem u now (s, res) d).2.created = res.created + 1) ∧
    (∀ x, s.patients.find? (pMatch u JVal.null) = some x →
       (syncPatientItem u now (s, res) d).1.patients
         = updateFirst (pMatch u JVal.null) (applyPatientUpdate now d) s.patients ∧
       (syncPatientItem u now (s, res) d).2.updated = res.updated + 1 ∧
       (syncPatientItem u now (s, res) d).2.created = res.created) := by
  have hnull : pyGet d "local_id" = JVal.null := by simp [pyGet, habsent]
  constructor
  · intro hnone
    constructor <;> simp [syncPatientItem, hnull, hnone]
  · intro x hx
    refine ⟨?_, ?_, ?_⟩ <;> simp [syncPatientItem, hnull, hx]

def c5item : Item := [("first_name", JVal.str "B")]

theorem C5_amended_witness :
    (c5item.lookup "local_id" = none) ∧
    ((c5store1.patients.find? (pMatch 1 JVal.null) = none →
       (syncPatientItem 1 2 (c5store1, KindResult.empty) c5item).1.patients
         = c5store1.patients ++ [mkPatient 1 2 c5store1.nextPatientId c5item] ∧
       (syncPatientItem 1 2 (c5store1, KindResult.empty) c5item).2.created
         = KindResult.empty.created + 1) ∧
     (∀ x, c5store1.patients.find? (pMatch 1 JVal.null) = some x →
       (syncPatientItem 1 2 (c5store1, KindResult.empty) c5item).1.patients
         = updateFirst (pMatch 1 JVal.null) (applyPatientUpdate 2 c5item)
             c5store1.patients ∧
       (syncPatientItem 1 2 (c5store1, KindResult.empty) c5item).2.updated
         = KindResult.empty.updated + 1 ∧
       (syncPatientItem 1 2 (c5store1, KindResult.empty) c5item).2.created
         = KindResult.empty.created)) :=
  ⟨by decide, C5_amended_thm 1 2 c5store1 KindResult.empty c5item (by decide)⟩

/-- C7 amended: on the create path the underscore spelling takes
precedence only when its value is truthy; a falsy underscore value
(null, false, zero, empty string) falls back to the camelCase spelling
or its default.  Shown for the dually spelled patient fields and a
dually spelled record field. -/
theorem C7_amended_thm (u now : Nat) (s : Store) (res : KindResult) (d : Item)
    (hnew : s.patients.find? (pMatch u (pyGet d "local_id")) = none) :
    (∃ p, (syncPatientItem u now (s, res) d).1.patients = s.patients ++ [p] ∧
       getField p.fields "first_name"
         = (if truthy (pyGet d "first_name") = true then pyGet d "first_name"
            else pyGetD d "firstName" (JVal.str "")) ∧
       getField p.fields "blood_group"
         = (if truthy (pyGet d "blood_group") = true then pyGet d "blood_group"
            else pyGet d "bloodGroup") ∧
       getField p.fields "pregnancy_status"
         = (if truthy (pyGet d "pregnancy_status") = true
            then pyGet d "pregnancy_status"
            else pyGetD d "pregnancyStatus" (JVal.bool false))) ∧
    (∀ rid pid : Nat, getField (mkRecord u now rid pid d).fields "bp_systolic"
       = (if truthy (pyGet d "bp_systolic") = true then pyGet d "bp_systolic"
          else pyGet d "bpSystolic")) := by
  constructor
  · refine ⟨mkPatient u now s.nextPatientId d, ?_, rfl, rfl, rfl⟩
    simp [syncPatientItem, hnew]
  · intro rid pid
    rfl

def c7item : Item :=
  [("local_id", JVal.str "p1"), ("first_name", JVal.str ""),
   ("firstName", JVal.str "Jane")]

theorem C7_amended_witness :
    (emptyStore.patients.find? (pMatch 1 (pyGet c7item "local_id")) = none) ∧
    ((∃ p, (syncPatientItem 1 5 (emptyStore, KindResult.empty) c7item).1.patients
         = emptyStore.patients ++ [p] ∧
       getField p.fields "first_name"
         = (if truthy (pyGet c7item "first_name") = true then pyGet c7item "first_name"
            else pyGetD c7item "firstName" (JVal.str "")) ∧
       getField p.fields "blood_group"
         = (if truthy (pyGet c7item "blood_group") = true then pyGet c7item "blood_group"
            else pyGet c7item "bloodGroup") ∧
       getField p.fields "pregnancy_status"
         = (if truthy (pyGet c7item "pregnancy_status") = true
            then pyGet c7item "pregnancy_status"
            else pyGetD c7item "pregnancyStatus" (JVal.bool false))) ∧
     (∀ rid pid : Nat, getField (mkRecord 1 5 rid pid c7item).fields "bp_systolic"
       = (if truthy (pyGet c7item "bp_systolic") = true then pyGet c7item "bp_systolic"
          else pyGet c7item "bpSystolic"))) :=
  ⟨by decide, C7_amended_thm 1 5 emptyStore KindResult.empty c7item (by decide)⟩

/-- C8 amended: on the update path only keys that name actual mapped
attributes are applied; a key absent in its underscore spelling leaves
the field unchanged whatever camelCase keys the payload carries, and a
trailing underscore-spelled key is applied.  Dual-spelling acceptance
holds only on the create path. -/
theorem C8_amended_thm (now : Nat) (p : Patient) (d : Item) (v : JVal)
    (h : ∀ kv ∈ d, kv.1 ≠ "first_name") :
    getField (applyPatientUpdate now d p).fields "first_name"
      = getField p.fields "first_name" ∧
    getField (applyPatientUpdate now (d ++ [("first_name", v)]) p).fields "first_name"
      = v := by
  have hsync : ("first_name" : String) ≠ "sync_status" := by decide
  constructor
  · show getField (setField (applyItemFields patientDeny patientAttrs p.fields d)
        "sync_status" (.str "synced")) "first_name" = _
    rw [getField_setField_ne _ _ _ _ hsync]
    exact getField_applyItemFields_absent patientDeny patientAttrs "first_name" d
      p.fields h
  · show getField (setField
        (applyItemFields patientDeny patientAttrs p.fields (d ++ [("first_name", v)]))
        "sync_status" (.str "synced")) "first_name" = v
    rw [getField_setField_ne _ _ _ _ hsync]
    have hd1 : ("first_name" : String) ∉ patientDeny := by decide
    have hd2 : ("first_name" : String) ∈ patientAttrs := by decide
    have happ : applyItemFields patientDeny patientAttrs p.fields
        (d ++ [("first_name", v)])
        = setField (applyItemFields patientDeny patientAttrs p.fields d)
            "first_name" v := by
      unfold applyItemFields
      rw [List.foldl_append]
      simp [hd1, hd2]
    rw [happ, getField_setField_self]

def c8patient : Patient :=
  { id := 1, patient_uid := "ASHA-1", created_by := 1,
    local_id := JVal.str "p1", updated_at := 1,
    fields := [("first_name", JVal.str "Old")] }

def c8item : Item := [("firstName", JVal.str "New")]

theorem C8_amended_witness :
    (∀ kv ∈ c8item, kv.1 ≠ "first_name") ∧
    (getField (applyPatientUpdate 2 c8item c8patient).fields "first_name"
       = getField c8patient.fields "first_name" ∧
     getField (applyPatientUpdate 2 (c8item ++ [("first_name", JVal.str "X")])
         c8patient).fields "first_name" = JVal.str "X") :=
  ⟨by decide, C8_amended_thm 2 c8patient c8item (JVal.str "X") (by decide)⟩

/-- C4 amended: patient processing validates no field values: a batch
of new patient items with pairwise distinct local ids — malformed
field values included — creates every item, records no error entry,
and grows the table by the batch length; an error entry would require
an exception inside an item's processing, which a malformed field
value does not raise. -/
theorem C4_amended_thm (u now : Nat) (s : Store) (res : KindResult) (ds : List Item)
    (hfresh : ∀ d ∈ ds, ∀ p ∈ s.patients, pMatch u (pyGet d "local_id") p = false)
    (hnodup : (ds.map (fun d => pyGet d "local_id")).Nodup) :
    (syncPatients u now (s, res) ds).2.created = res.created + ds.length ∧
    (syncPatients u now (s, res) ds).2.errors = res.errors ∧
    (syncPatients u now (s, res) ds).1.patients.length
      = s.patients.length + ds.length := by
  induction ds generalizing s res with
  | nil => exact ⟨rfl, rfl, rfl⟩
  | cons d ds ih =>
      have hnod := List.nodup_cons.1 hnodup
      have hfd : ∀ p ∈ s.patients, pMatch u (pyGet d "local_id") p = false :=
        hfresh d (List.mem_cons_self d ds)
      have hnone : s.patients.find? (pMatch u (pyGet d "local_id")) = none :=
        List.find?_eq_none.2 (fun p hp => by simp [hfd p hp])
      have hstep : syncPatientItem u now (s, res) d =
          ({ s with patients := s.patients ++ [mkPatient u now s.nextPatientId d]
                    nextPatientId := s.nextPatientId + 1 },
           { res with created := res.created + 1 }) := by
        simp [syncPatientItem, hnone]
      have hfresh2 : ∀ d2 ∈ ds,
          ∀ p ∈ s.patients ++ [mkPatient u now s.nextPatientId d],
          pMatch u (pyGet d2 "local_id") p = false := by
        intro d2 hd2 p hp
        rcases List.mem_append.1 hp with hp1 | hp1
        · exact hfresh d2 (List.mem_cons_of_mem _ hd2) p hp1
        · have hpm : p = mkPatient u now s.nextPatientId d := by simpa using hp1
          subst hpm
          have hne : pyGet d "local_id" ≠ pyGet d2 "local_id" := by
            intro hcontra
            apply hnod.1
            have hmm : pyGet d2 "local_id"
                ∈ List.map (fun d3 => pyGet d3 "local_id") ds :=
              List.mem_map_of_mem _ hd2
            rw [← hcontra] at hmm
            exact hmm
          have hb : (pyGet d "local_id" == pyGet d2 "local_id") = false :=
            beq_eq_false_iff_ne.2 hne
          simp [pMatch, mkPatient, hb]
      have ih2 := ih
        { s with patients := s.patients ++ [mkPatient u now s.nextPatientId d]
                 nextPatientId := s.nextPatientId + 1 }
        { res with created := res.created + 1 } hfresh2 hnod.2
      have hrw : syncPatients u now (s, res) (d :: ds)
          = syncPatients u now
            ({ s with patients := s.patients ++ [mkPatient u now s.nextPatientId d]
                      nextPatientId := s.nextPatientId + 1 },
             { res with created := res.created + 1 }) ds := by
        show syncPatients u now (syncPatientItem u now (s, res) d) ds = _
        rw [hstep]
      rw [hrw]
      refine ⟨?_, ih2.2.1, ?_⟩
      · rw [ih2.1]; simp; omega
      · rw [ih2.2.2]; simp; omega

theorem C4_amended_witness :
    ((∀ d ∈ c4batch.patients, ∀ p ∈ emptyStore.patients,
        pMatch 1 (pyGet d "local_id") p = false) ∧
     (c4batch.patients.map (fun d => pyGet d "local_id")).Nodup) ∧
    ((syncPatients 1 3 (emptyStore, KindResult.empty) c4batch.patients).2.created
       = KindResult.empty.created + c4batch.patients.length ∧
     (syncPatients 1 3 (emptyStore, KindResult.empty) c4batch.patients).2.errors
       = KindResult.empty.errors ∧
     (syncPatients 1 3 (emptyStore, KindResult.empty) c4batch.patients).1.patients.length
       = emptyStore.patients.length + c4batch.patients.length) :=
  ⟨⟨by decide, by decide⟩,
   C4_amended_thm 1 3 emptyStore KindResult.empty c4batch.patients
     (by decide) (by decide)⟩

/-- C3: a batch containing one new patient carrying (truthy) local id
P1 and one new record referencing parent local id P1 creates both
entities and links the record to the newly created patient's server
id, because all patients are processed and committed before any record
of the same batch. -/
theorem C3_thm (u now : Nat) (s0 : Store) (b : Batch) (P1 : JVal) (dp dr : Item)
    (hP1 : truthy P1 = true)
    (hsplit : b.patients.filter (fun d => pyGet d "local_id" == P1) = [dp])
    (hfresh : ∀ p ∈ s0.patients, pMatch u P1 p = false)
    (hdrpid : dr.lookup "patient_id" = none)
    (hdrpl : pyGet dr "patient_local_id" = P1)
    (hrsplit : b.records.filter
        (fun d => pyGet d "local_id" == pyGet dr "local_id") = [dr])
    (hrfresh : ∀ r ∈ s0.records, rMatch u (pyGet dr "local_id") r = false) :
    1 ≤ (sync_data u now b s0).1.patients.created ∧
    1 ≤ (sync_data u now b s0).1.records.created ∧
    ∃ p ∈ (sync_data u now b s0).2.patients,
      ∃ r ∈ (sync_data u now b s0).2.records,
        pMatch u P1 p = true ∧ rMatch u (pyGet dr "local_id") r = true ∧
        r.patient_id = p.id := by
  obtain ⟨lp, rp, hbp, hlp, hrp, hdpq⟩ := filter_eq_singleton_split hsplit
  have hdplid : pyGet dp "local_id" = P1 := beq_iff_eq.1 hdpq
  obtain ⟨lr, rr, hbr, hlr, hrr, _⟩ := filter_eq_singleton_split hrsplit
  obtain ⟨sA, rA, hA⟩ :
      ∃ sA rA, syncPatients u now (s0, KindResult.empty) lp = (sA, rA) :=
    ⟨_, _, rfl⟩
  have hA_no : ∀ x ∈ sA.patients, pMatch u P1 x = false := by
    have h1 := syncPatients_keeps_nomatch u now P1 lp hlp
      (s0, KindResult.empty) hfresh
    rw [hA] at h1
    exact h1
  have hAfind : sA.patients.find? (pMatch u (pyGet dp "local_id")) = none := by
    rw [hdplid]
    exact List.find?_eq_none.2 (fun x hx => by simp [hA_no x hx])
  have hstep : syncPatientItem u now (sA, rA) dp =
      ({ sA with patients := sA.patients ++ [mkPatient u now sA.nextPatientId dp]
                 nextPatientId := sA.nextPatientId + 1 },
       { rA with created := rA.created + 1 }) := by
    simp [syncPatientItem, hAfind]
  set p0 := mkPatient u now sA.nextPatientId dp with hp0def
  have hp0m : pMatch u P1 p0 = true := by
    simp [pMatch, hp0def, mkPatient, hdplid]
  have huniq2 : ∀ x ∈ sA.patients ++ [p0], pMatch u P1 x = true → x = p0 := by
    intro x hx hmx
    rcases List.mem_append.1 hx with h1 | h1
    · rw [hA_no x h1] at hmx; cases hmx
    · simpa using h1
  have hmem2 : p0 ∈ sA.patients ++ [p0] := List.mem_append_right _ (by simp)
  have hPAu := syncPatients_keeps_unique u now P1 p0 hp0m rp hrp
    ({ sA with patients := sA.patients ++ [p0]
               nextPatientId := sA.nextPatientId + 1 },
     { rA with created := rA.created + 1 }) hmem2 huniq2
  have hPA : syncPatients u now (s0, KindResult.empty) b.patients
      = syncPatients u now
          ({ sA with patients := sA.patients ++ [p0]
                     nextPatientId := sA.nextPatientId + 1 },
           { rA with created := rA.created + 1 }) rp := by
    rw [hbp, syncPatients_append]
    show syncPatients u now
      (syncPatientItem u now (syncPatients u now (s0, KindResult.empty) lp) dp) rp = _
    rw [hA, hstep]
  obtain ⟨sP, rP, hP⟩ :
      ∃ sP rP, syncPatients u now (s0, KindResult.empty) b.patients = (sP, rP) :=
    ⟨_, _, rfl⟩
  have hp0P : p0 ∈ sP.patients ∧
      ∀ x ∈ sP.patients, pMatch u P1 x = true → x = p0 := by
    have h1 := hPAu
    rw [← hPA, hP] at h1
    exact h1
  have hcreated : 1 ≤ rP.created := by
    have hle := syncPatients_created_le u now rp
      ({ sA with patients := sA.patients ++ [p0]
                 nextPatientId := sA.nextPatientId + 1 },
       { rA with created := rA.created + 1 })
    rw [← hPA, hP] at hle
    have hle2 : rA.created + 1 ≤ rP.created := hle
    omega
  have hsPrec : sP.records = s0.records := by
    have h1 := (syncPatients_stable u now b.patients (s0, KindResult.empty)).1
    rw [hP] at h1
    exact h1
  obtain ⟨sB, rB, hB⟩ :
      ∃ sB rB, syncRecords u now (sP, KindResult.empty) lr = (sB, rB) :=
    ⟨_, _, rfl⟩
  have hBpat : sB.patients = sP.patients := by
    have h1 := (syncRecords_stable u now lr (sP, KindResult.empty)).1
    rw [hB] at h1
    exact h1
  have hBno : ∀ x ∈ sB.records, rMatch u (pyGet dr "local_id") x = false := by
    have hinit : ∀ x ∈ sP.records, rMatch u (pyGet dr "local_id") x = false := by
      intro x hx
      exact hrfresh x (hsPrec ▸ hx)
    have h1 := syncRecords_keeps_nomatch u now (pyGet dr "local_id") lr hlr
      (sP, KindResult.empty) hinit
    rw [hB] at h1
    exact h1
  have htr : pyGet dr "patient_id" = JVal.null := by simp [pyGet, hdrpid]
  have hlink : linkParent u dr sB.patients = some p0 := by
    have hnull : truthy (pyGet dr "patient_id") = false := by rw [htr]; rfl
    have hlp2 : linkParent u dr sB.patients = sB.patients.find? (pMatch u P1) := by
      simp [linkParent, hnull, hdrpl, hP1]
    rw [hlp2, hBpat]
    exact find?_eq_some_of_unique hp0P.1 hp0m hp0P.2
  have hBfind : sB.records.find? (rMatch u (pyGet dr "local_id")) = none :=
    List.find?_eq_none.2 (fun x hx => by simp [hBno x hx])
  have hstepR : syncRecordItem u now (sB, rB) dr =
      ({ sB with records := sB.records ++ [mkRecord u now sB.nextRecordId p0.id dr]
                 nextRecordId := sB.nextRecordId + 1 },
       { rB with created := rB.created + 1 }) := by
    simp [syncRecordItem, hlink, hBfind]
  set r0 := mkRecord u now sB.nextRecordId p0.id dr with hr0def
  have hr0m : rMatch u (pyGet dr "local_id") r0 = true := by
    simp [rMatch, hr0def, mkRecord]
  have hrrne : ∀ d ∈ rr, rMatch u (pyGet d "local_id") r0 = false := by
    intro d hd
    have hq : (pyGet d "local_id" == pyGet dr "local_id") = false := hrr d hd
    have hne : r0.local_id ≠ pyGet d "local_id" := by
      show pyGet dr "local_id" ≠ pyGet d "local_id"
      exact fun hc => (beq_eq_false_iff_ne.1 hq) hc.symm
    simp [rMatch, beq_eq_false_iff_ne.2 hne]
  have hRB : syncRecords u now (sP, KindResult.empty) b.records
      = syncRecords u now
          ({ sB with records := sB.records ++ [r0]
                     nextRecordId := sB.nextRecordId + 1 },
           { rB with created := rB.created + 1 }) rr := by
    rw [hbr, syncRecords_append]
    show syncRecords u now
      (syncRecordItem u now (syncRecords u now (sP, KindResult.empty) lr) dr) rr = _
    rw [hB, hstepR]
  obtain ⟨sR, rR, hR⟩ :
      ∃ sR rR, syncRecords u now (sP, KindResult.empty) b.records = (sR, rR) :=
    ⟨_, _, rfl⟩
  have hr0R : r0 ∈ sR.records := by
    have h1 := syncRecords_keeps_elem u now r0 rr hrrne
      ({ sB with records := sB.records ++ [r0]
                 nextRecordId := sB.nextRecordId + 1 },
       { rB with created := rB.created + 1 })
      (List.mem_append_right _ (by simp))
    rw [← hRB, hR] at h1
    exact h1
  have hcreatedR : 1 ≤ rR.created := by
    have hle := syncRecords_created_le u now rr
      ({ sB with records := sB.records ++ [r0]
                 nextRecordId := sB.nextRecordId + 1 },
       { rB with created := rB.created + 1 })
    rw [← hRB, hR] at hle
    have hle2 : rB.created + 1 ≤ rR.created := hle
    omega
  have hsRpat : sR.patients = sP.patients := by
    have h1 := (syncRecords_stable u now b.records (sP, KindResult.empty)).1
    rw [hR] at h1
    exact h1
  refine ⟨?_, ?_, ?_⟩
  · show 1 ≤ (syncPatients u now (s0, KindResult.empty) b.patients).2.created
    rw [hP]
    exact hcreated
  · show 1 ≤ (syncRecords u now
      ((syncPatients u now (s0, KindResult.empty) b.patients).1,
        KindResult.empty) b.records).2.created
    rw [hP]
    show 1 ≤ (syncRecords u now (sP, KindResult.empty) b.records).2.created
    rw [hR]
    exact hcreatedR
  · show ∃ p ∈ (syncReminders u now
        ((syncRecords u now
          ((syncPatients u now (s0, KindResult.empty) b.patients).1,
            KindResult.empty) b.records).1, KindResult.empty)
        b.reminders).1.patients,
      ∃ r ∈ (syncReminders u now
        ((syncRecords u now
          ((syncPatients u now (s0, KindResult.empty) b.patients).1,
            KindResult.empty) b.records).1, KindResult.empty)
        b.reminders).1.records,
        pMatch u P1 p = true ∧ rMatch u (pyGet dr "local_id") r = true ∧
        r.patient_id = p.id
    rw [hP]
    show ∃ p ∈ (syncReminders u now
        ((syncRecords u now (sP, KindResult.empty) b.records).1,
          KindResult.empty) b.reminders).1.patients,
      ∃ r ∈ (syncReminders u now
        ((syncRecords u now (sP, KindResult.empty) b.records).1,
          KindResult.empty) b.reminders).1.records,
        pMatch u P1 p = true ∧ rMatch u (pyGet dr "local_id") r = true ∧
        r.patient_id = p.id
    rw [hR]
    have hrem := syncReminders_stable u now b.reminders (sR, KindResult.empty)
    rw [hrem.1, hrem.2]
    exact ⟨p0, hsRpat ▸ hp0P.1, r0, hr0R, hp0m, hr0m, rfl⟩

def c3dp : Item := [("local_id", JVal.str "P1"), ("first_name", JVal.str "Asha")]

def c3dr : Item :=
  [("local_id", JVal.str "r1"), ("patient_local_id", JVal.str "P1"),
   ("bp_systolic", JVal.int 150)]

def c3batch : Batch := { patients := [c3dp], records := [c3dr], reminders := [] }

theorem C3_witness :
    (truthy (JVal.str "P1") = true ∧
     c3batch.patients.filter (fun d => pyGet d "local_id" == JVal.str "P1") = [c3dp] ∧
     (∀ p ∈ emptyStore.patients, pMatch 1 (JVal.str "P1") p = false) ∧
     c3dr.lookup "patient_id" = none ∧
     pyGet c3dr "patient_local_id" = JVal.str "P1" ∧
     c3batch.records.filter
       (fun d => pyGet d "local_id" == pyGet c3dr "local_id") = [c3dr] ∧
     (∀ r ∈ emptyStore.records, rMatch 1 (pyGet c3dr "local_id") r = false)) ∧
    (1 ≤ (sync_data 1 9 c3batch emptyStore).1.patients.created ∧
     1 ≤ (sync_data 1 9 c3batch emptyStore).1.records.created ∧
     ∃ p ∈ (sync_data 1 9 c3batch emptyStore).2.patients,
       ∃ r ∈ (sync_data 1 9 c3batch emptyStore).2.records,
         pMatch 1 (JVal.str "P1") p = true ∧
         rMatch 1 (pyGet c3dr "local_id") r = true ∧
         r.patient_id = p.id) :=
  ⟨⟨by decide, by decide, by decide, by decide, by decide, by decide, by decide⟩,
   C3_thm 1 9 emptyStore c3batch (JVal.str "P1") c3dp c3dr
     (by decide) (by decide) (by decide) (by decide) (by decide) (by decide)
     (by decide)⟩

end AiSm26
